import Mathlib

/-!
# inputtino: the emulated PS5 (DualSense) joypad

A shallow embedding of `src/uhid/joypad_ps5.cpp` and
`src/uhid/include/uhid/protected_types.hpp`.

* Unsigned machine integers are `Nat` with an explicit reduction modulo `2^w`
  at every store into a field of width `w`; signed `int`/`short` arguments are `Int`.
* `float`/`double` values are rationals; every inexact floating-point operation
  is passed through a rounding operator taken from the environment (`Env.fl64`,
  `Env.fl32`), so that results hold for every rounding that obeys the usual
  relative error bound, and in particular for exact arithmetic.
* `state.dev->send(ev)` appends the transmitted report to the list `dev`.
* The wall clock read by `send_report` is an explicit argument `now`
  (nanoseconds since the epoch).
* The headers `uhid/ps5.hpp`, `uhid/uhid.hpp` and `inputtino/input.hpp` are not
  part of the source tree: their constants are fields of `Env`.
* `on_uhid_event` returns the state together with its effects: the reply
  written with `uhid::uhid_write` and the calls of the registered callbacks.
* The directory tree that `get_sys_nodes` walks is an argument.
-/

set_option linter.dupNamespace false

namespace Inputtino

/-! ## Data model -/

/-- Modelled from the spec: `dualsense_touch_point`, one entry of `points[2]` in
the input report, is declared in `uhid/ps5.hpp`, which is not in the tree. The
spec fixes the layout as a 12-bit split of `x` (low byte `x_lo`, high nibble
`x_hi`) and of `y` (low nibble `y_lo`, high byte `y_hi`), plus a contact flag and
a touch id. -/
structure dualsense_touch_point where
  contact : Nat
  id : Nat
  x_lo : Nat
  x_hi : Nat
  y_lo : Nat
  y_hi : Nat
deriving DecidableEq, Repr

/-- Modelled from the spec: `dualsense_input_report_usb` is declared in
`uhid/ps5.hpp`, which is not in the tree. These are the fields that
`joypad_ps5.cpp` reads or writes; axes, the sequence counter and the button
bytes are single bytes of the wire format, `gyro`/`accel` are 16-bit and
`sensor_timestamp` is 32-bit little endian. -/
structure dualsense_input_report_usb where
  x : Nat
  y : Nat
  rx : Nat
  ry : Nat
  z : Nat
  rz : Nat
  seq_number : Nat
  buttons : Fin 4 → Nat
  gyro : Fin 3 → Nat
  accel : Fin 3 → Nat
  sensor_timestamp : Nat
  points : Fin 2 → dualsense_touch_point
  battery_charge : Nat
  battery_status : Nat

/-- Everything `joypad_ps5.cpp` takes from outside the source tree. -/
structure Env where
  /-- `inputtino/input.hpp`: the `CONTROLLER_BTN` flags tested by `set_pressed_buttons`. -/
  DPAD_UP : Nat
  DPAD_DOWN : Nat
  DPAD_LEFT : Nat
  DPAD_RIGHT : Nat
  START : Nat
  BACK : Nat
  HOME : Nat
  LEFT_STICK : Nat
  RIGHT_STICK : Nat
  LEFT_BUTTON : Nat
  RIGHT_BUTTON : Nat
  TOUCHPAD_FLAG : Nat
  MISC_FLAG : Nat
  A : Nat
  B : Nat
  X : Nat
  Y : Nat
  /-- `uhid/ps5.hpp`: hat codes. -/
  HAT_N : Nat
  HAT_NE : Nat
  HAT_E : Nat
  HAT_SE : Nat
  HAT_S : Nat
  HAT_SW : Nat
  HAT_W : Nat
  HAT_NW : Nat
  HAT_NEUTRAL : Nat
  /-- `uhid/ps5.hpp`: button bits of `buttons[0..2]`. -/
  SQUARE : Nat
  TRIANGLE : Nat
  CROSS : Nat
  CIRCLE : Nat
  L1 : Nat
  R1 : Nat
  L3 : Nat
  R3 : Nat
  OPTIONS : Nat
  CREATE : Nat
  TOUCHPAD : Nat
  PS_HOME : Nat
  MIC_MUTE : Nat
  /-- `uhid/ps5.hpp`: the native axis range. -/
  PS5_AXIS_MIN : Int
  PS5_AXIS_MAX : Int
  /-- `uhid/ps5.hpp`: motion unit constants. -/
  SDL_STANDARD_GRAVITY : ℚ
  gyro_resolution : ℚ
  /-- `uhid/ps5.hpp`: the report as its default member initialisers leave it. -/
  default_report : dualsense_input_report_usb
  /-- Rounding of a real result to `double`. -/
  fl64 : ℚ → ℚ
  /-- Rounding of a real result to `float`. -/
  fl32 : ℚ → ℚ
  /-- State of a default-constructed `std::default_random_engine`. -/
  rng_seed : Nat
  /-- One draw `distribution(generator)`: the value and the next engine state. -/
  rng_draw : Nat → Nat × Nat
  /-- `uhid/ps5.hpp`: the report numbers `PS5_REPORT_TYPES` of the metadata queries. -/
  CALIBRATION : Nat
  PAIRING_INFO : Nat
  FIRMWARE_INFO : Nat
  /-- `uhid/ps5.hpp`: the fixed reply payloads, as byte lists. -/
  ps5_calibration_info : List Nat
  ps5_pairing_info : List Nat
  ps5_firmware_info : List Nat
  /-- `uhid/ps5.hpp`: validity flag bits of the output report. -/
  MOTOR_OR_COMPATIBLE_VIBRATION : Nat
  COMPATIBLE_VIBRATION : Nat
  LIGHTBAR_ENABLE : Nat

/-- Modelled from the spec: the members `vendor_id` and `last_touch_id`, which
`joypad_ps5.cpp` uses and the `PS5JoypadState` of `protected_types.hpp` does not
declare; the spec describes `last_touch_id` as a counter that is incremented at
each released-to-pressed transition, and it starts at 0. The counter is kept as
an unbounded natural number: the reachable values are proved to stay within
0x7F, so that no integer type of at least 8 bits wraps. The other members are
those of the header; `dev` holds the reports handed to `dev->send`, latest
first, and a registered callback (`on_rumble`, `on_led`) is represented by a
number that identifies it, `none` standing for `std::nullopt`. -/
structure PS5JoypadState where
  dev : List dualsense_input_report_usb
  mac_address : List Nat
  vendor_id : Nat
  current_state : dualsense_input_report_usb
  last_touch_id : Nat
  on_rumble : Option Nat
  on_led : Option Nat

/-- The value-initialised `PS5JoypadState` (default member initialisers of the header). -/
def PS5JoypadState.init (E : Env) : PS5JoypadState :=
  { dev := []
    mac_address := [0xAA, 0xBB, 0xCC, 0xDD, 0xEE, 0xFF]
    vendor_id := 0
    current_state := E.default_report
    last_touch_id := 0
    on_rumble := none
    on_led := none }

/-! ## Transmission -/

/-- The static `send_report`: bump the sequence counter (a byte, reset to 0 once
it reaches 255), stamp the time in units of 333 ns, hand the report to the device. -/
def send_report (now : Nat) (state : PS5JoypadState) : PS5JoypadState :=
  let seq := (state.current_state.seq_number + 1) % 256
  let seq := if seq ≥ 255 then 0 else seq
  let cur := { state.current_state with
    seq_number := seq
    sensor_timestamp := (now / 333) % 2 ^ 32 }
  { state with current_state := cur, dev := cur :: state.dev }

/-! ## Construction -/

/-- The loop body of `generate_mac_address`, `n` times from engine state `g`. -/
def draw_bytes (draw : Nat → Nat × Nat) : Nat → Nat → List Nat
  | 0, _ => []
  | n + 1, g => ((draw g).1 % 256) :: draw_bytes draw n (draw g).2

/-- The function `generate_mac_address`: six draws from a generator that is
default-constructed inside the function. -/
def generate_mac_address (E : Env) (state : PS5JoypadState) : PS5JoypadState :=
  { state with mac_address := draw_bytes E.rng_draw 6 E.rng_seed }

/-- Store `contact := c` in touch point `i`. -/
def set_contact (r : dualsense_input_report_usb) (i : Fin 2) (c : Nat) :
    dualsense_input_report_usb :=
  { r with points := Function.update r.points i { r.points i with contact := c } }

/-- The constructor `PS5Joypad::PS5Joypad(vendor_id)`. -/
def PS5Joypad.PS5Joypad (E : Env) (vendor_id : Nat) : PS5JoypadState :=
  let state := generate_mac_address E (PS5JoypadState.init E)
  let state := { state with vendor_id := vendor_id % 2 ^ 16 }
  let state := { state with current_state := set_contact state.current_state 0 1 }
  { state with current_state := set_contact state.current_state 1 1 }

/-! ## Codec -/

/-- The function `std::round`: nearest integer, halfway cases away from zero. -/
def std_round (v : ℚ) : Int :=
  if 0 ≤ v then ⌊v + 1 / 2⌋ else -⌊-v + 1 / 2⌋

/-- The static `scale_value`. The integer differences convert to `double`
exactly; the division and the product are rounded by `fl`; the final sum is a
sum of two integers. -/
def scale_value (fl : ℚ → ℚ) (input input_start input_end output_start output_end : Int) :
    Int :=
  let slope : ℚ := fl (((output_end - output_start : Int) : ℚ) / ((input_end - input_start : Int) : ℚ))
  output_start + std_round (fl (slope * ((input - input_start : Int) : ℚ)))

/-- Store of an `int` into a `uint8_t` field. -/
def to_u8 (v : Int) : Nat := (v % 256).toNat

/-- Conversion of a floating-point value to `uint16_t`: truncation toward zero,
reduced modulo `2^16` (the conversion of an out-of-range value is not defined
by the language; this is what the usual 32-bit conversion followed by a
16-bit store yields). -/
def float_to_u16 (v : ℚ) : Nat :=
  ((if 0 ≤ v then ⌊v⌋ else ⌈v⌉) % 65536).toNat

/-- The static `to_le_signed` (`htole16` is the identity on the bit pattern). -/
def to_le_signed (original value : ℚ) : Nat :=
  let le := float_to_u16 value
  if original < 0 then (le ||| (1 <<< 15)) % 65536 else le

/-! ## Mutators -/

/-- Truth value of the C expression `FLAG & pressed`. -/
def flag_set (flag pressed : Nat) : Bool := (flag &&& pressed) != 0

/-- The statement `byte |= bits` on a `uint8_t`. -/
def or_u8 (byte bits : Nat) : Nat := (byte ||| bits) % 256

/-- The hat part of `set_pressed_buttons`: the five D-pad statements applied to
`buttons[0]` in source order. -/
def hat_of_dpad (E : Env) (pressed b0 : Nat) : Nat :=
  let b0 :=
    if flag_set E.DPAD_UP pressed then
      if flag_set E.DPAD_LEFT pressed then or_u8 b0 E.HAT_NW
      else if flag_set E.DPAD_RIGHT pressed then or_u8 b0 E.HAT_NE
      else or_u8 b0 E.HAT_N
    else b0
  let b0 :=
    if flag_set E.DPAD_DOWN pressed then
      if flag_set E.DPAD_LEFT pressed then or_u8 b0 E.HAT_SW
      else if flag_set E.DPAD_RIGHT pressed then or_u8 b0 E.HAT_SE
      else or_u8 b0 E.HAT_S
    else b0
  let b0 :=
    if flag_set E.DPAD_LEFT pressed then
      if !(flag_set E.DPAD_UP pressed) && !(flag_set E.DPAD_DOWN pressed) then or_u8 b0 E.HAT_W
      else b0
    else b0
  let b0 :=
    if flag_set E.DPAD_RIGHT pressed then
      if !(flag_set E.DPAD_UP pressed) && !(flag_set E.DPAD_DOWN pressed) then or_u8 b0 E.HAT_E
      else b0
    else b0
  if !(flag_set E.DPAD_UP pressed) && !(flag_set E.DPAD_DOWN pressed)
      && !(flag_set E.DPAD_LEFT pressed) && !(flag_set E.DPAD_RIGHT pressed) then
    or_u8 b0 E.HAT_NEUTRAL
  else b0

/-- The face-button statements of `set_pressed_buttons` on `buttons[0]`. -/
def face_buttons (E : Env) (pressed b0 : Nat) : Nat :=
  let b0 := if flag_set E.X pressed then or_u8 b0 E.SQUARE else b0
  let b0 := if flag_set E.Y pressed then or_u8 b0 E.TRIANGLE else b0
  let b0 := if flag_set E.A pressed then or_u8 b0 E.CROSS else b0
  if flag_set E.B pressed then or_u8 b0 E.CIRCLE else b0

/-- The statements of `set_pressed_buttons` on `buttons[1]`. -/
def shoulder_buttons (E : Env) (pressed b1 : Nat) : Nat :=
  let b1 := if flag_set E.LEFT_BUTTON pressed then or_u8 b1 E.L1 else b1
  let b1 := if flag_set E.RIGHT_BUTTON pressed then or_u8 b1 E.R1 else b1
  let b1 := if flag_set E.LEFT_STICK pressed then or_u8 b1 E.L3 else b1
  let b1 := if flag_set E.RIGHT_STICK pressed then or_u8 b1 E.R3 else b1
  let b1 := if flag_set E.START pressed then or_u8 b1 E.OPTIONS else b1
  if flag_set E.BACK pressed then or_u8 b1 E.CREATE else b1

/-- The statements of `set_pressed_buttons` on `buttons[2]`. -/
def system_buttons (E : Env) (pressed b2 : Nat) : Nat :=
  let b2 := if flag_set E.TOUCHPAD_FLAG pressed then or_u8 b2 E.TOUCHPAD else b2
  let b2 := if flag_set E.HOME pressed then or_u8 b2 E.PS_HOME else b2
  if flag_set E.MISC_FLAG pressed then or_u8 b2 E.MIC_MUTE else b2

/-- The method `PS5Joypad::set_pressed_buttons`; `pressed` is the bit pattern of the
`int` argument. -/
def PS5Joypad.set_pressed_buttons (E : Env) (now : Nat) (pressed : Nat)
    (state : PS5JoypadState) : PS5JoypadState :=
  let b0 := face_buttons E pressed (hat_of_dpad E pressed 0)
  let b1 := shoulder_buttons E pressed 0
  let b2 := system_buttons E pressed 0
  send_report now
    { state with current_state := { state.current_state with buttons := ![b0, b1, b2, 0] } }

/-- The method `PS5Joypad::set_triggers`. -/
def PS5Joypad.set_triggers (E : Env) (now : Nat) (left right : Int)
    (state : PS5JoypadState) : PS5JoypadState :=
  send_report now
    { state with current_state := { state.current_state with
        z := to_u8 (scale_value E.fl64 left 0 255 E.PS5_AXIS_MIN E.PS5_AXIS_MAX)
        rz := to_u8 (scale_value E.fl64 right 0 255 E.PS5_AXIS_MIN E.PS5_AXIS_MAX) } }

/-- The enumeration `Joypad::STICK_POSITION`. -/
inductive STICK_POSITION where
  | RS
  | LS
deriving DecidableEq, Repr

/-- The method `PS5Joypad::set_stick`; `x`, `y` are `short`, and `-y` is computed in `int`. -/
def PS5Joypad.set_stick (E : Env) (now : Nat) (stick_type : STICK_POSITION) (x y : Int)
    (state : PS5JoypadState) : PS5JoypadState :=
  match stick_type with
  | .RS =>
    send_report now
      { state with current_state := { state.current_state with
          rx := to_u8 (scale_value E.fl64 x (-32768) 32767 E.PS5_AXIS_MIN E.PS5_AXIS_MAX)
          ry := to_u8 (scale_value E.fl64 (-y) (-32768) 32767 E.PS5_AXIS_MIN E.PS5_AXIS_MAX) } }
  | .LS =>
    send_report now
      { state with current_state := { state.current_state with
          x := to_u8 (scale_value E.fl64 x (-32768) 32767 E.PS5_AXIS_MIN E.PS5_AXIS_MAX)
          y := to_u8 (scale_value E.fl64 (-y) (-32768) 32767 E.PS5_AXIS_MIN E.PS5_AXIS_MAX) } }

/-- The enumeration `PS5Joypad::MOTION_TYPE`. -/
inductive MOTION_TYPE where
  | ACCELERATION
  | GYROSCOPE
deriving DecidableEq, Repr

/-- The method `PS5Joypad::set_motion`. -/
def PS5Joypad.set_motion (E : Env) (now : Nat) (type : MOTION_TYPE) (x y z : ℚ)
    (state : PS5JoypadState) : PS5JoypadState :=
  match type with
  | .ACCELERATION =>
    let enc := fun (c : ℚ) => to_le_signed c (E.fl32 (E.fl32 (c * E.SDL_STANDARD_GRAVITY) * 100))
    send_report now
      { state with current_state := { state.current_state with accel := ![enc x, enc y, enc z] } }
  | .GYROSCOPE =>
    let enc := fun (c : ℚ) => to_le_signed c (E.fl32 (c * E.gyro_resolution))
    send_report now
      { state with current_state := { state.current_state with gyro := ![enc x, enc y, enc z] } }

/-- The method `PS5Joypad::set_battery`: `percentage / 10` is the truncating `int`
division; charge and status are the two nibbles of one byte. -/
def PS5Joypad.set_battery (now : Nat) (battery_state : Nat) (percentage : Int)
    (state : PS5JoypadState) : PS5JoypadState :=
  send_report now
    { state with current_state := { state.current_state with
        battery_charge := ((Int.tdiv percentage 10) % 16).toNat
        battery_status := battery_state % 16 } }

/-- The element of `points` that the `int` index `finger_nr` designates; `none`
when the index lies outside the two-element array. -/
def finger_index (finger_nr : Int) : Option (Fin 2) :=
  if finger_nr = 0 then some 0 else if finger_nr = 1 then some 1 else none

/-- The body of `place_finger` for an index inside the array. The explicit
`static_cast<uint8_t>` of the source is the reduction modulo 256; `x_hi` and
`y_lo` are then stored in nibbles. The id is stored as it is: it never exceeds
0x7F on the states that can be reached. -/
def place_finger_at (now : Nat) (i : Fin 2) (x y : Nat) (state : PS5JoypadState) :
    PS5JoypadState :=
  let p := state.current_state.points i
  let state_p :=
    if p.contact = 1 then
      (({ state with last_touch_id := state.last_touch_id + 1 } : PS5JoypadState),
        { p with id := state.last_touch_id + 1 })
    else (state, p)
  let state := state_p.1
  let p := { state_p.2 with
    contact := 0
    x_lo := (x &&& 0x00FF) % 256
    x_hi := (((x &&& 0xFF00) >>> 8) % 256) % 16
    y_lo := (((y &&& 0x00F0) <<< 4) % 256) % 16
    y_hi := (y >>> 4) % 256 }
  send_report now
    { state with current_state := { state.current_state with
        points := Function.update state.current_state.points i p } }

/-- The method `PS5Joypad::place_finger`. The only guard is `finger_nr <= 1`; an index
that passes it and lies outside `points[2]` has no defined result (`none`). -/
def PS5Joypad.place_finger (now : Nat) (finger_nr : Int) (x y : Nat)
    (state : PS5JoypadState) : Option PS5JoypadState :=
  if finger_nr ≤ 1 then
    match finger_index finger_nr with
    | some i => some (place_finger_at now i x y state)
    | none => none
  else some state

/-- The body of `release_finger` for an index inside the array. -/
def release_finger_at (now : Nat) (i : Fin 2) (state : PS5JoypadState) : PS5JoypadState :=
  let state : PS5JoypadState :=
    if state.last_touch_id ≥ 0x7E then { state with last_touch_id := 0 } else state
  send_report now { state with current_state := set_contact state.current_state i 1 }

/-- The method `PS5Joypad::release_finger`. -/
def PS5Joypad.release_finger (now : Nat) (finger_nr : Int)
    (state : PS5JoypadState) : Option PS5JoypadState :=
  if finger_nr ≤ 1 then
    match finger_index finger_nr with
    | some i => some (release_finger_at now i state)
    | none => none
  else some state

/-! ## Call sequences -/

/-- A call of one of the mutators. -/
inductive Call where
  | set_pressed_buttons (pressed : Nat)
  | set_triggers (left right : Int)
  | set_stick (stick_type : STICK_POSITION) (x y : Int)
  | set_motion (type : MOTION_TYPE) (x y z : ℚ)
  | set_battery (battery_state : Nat) (percentage : Int)
  | place_finger (finger_nr : Int) (x y : Nat)
  | release_finger (finger_nr : Int)

/-- Perform one call at clock reading `now`. -/
def Call.perform (E : Env) (now : Nat) : Call → PS5JoypadState → Option PS5JoypadState
  | .set_pressed_buttons pressed, s => some (PS5Joypad.set_pressed_buttons E now pressed s)
  | .set_triggers left right, s => some (PS5Joypad.set_triggers E now left right s)
  | .set_stick stick_type x y, s => some (PS5Joypad.set_stick E now stick_type x y s)
  | .set_motion type x y z, s => some (PS5Joypad.set_motion E now type x y z s)
  | .set_battery battery_state percentage, s =>
    some (PS5Joypad.set_battery now battery_state percentage s)
  | .place_finger finger_nr x y, s => PS5Joypad.place_finger now finger_nr x y s
  | .release_finger finger_nr, s => PS5Joypad.release_finger now finger_nr s

/-- Perform a sequence of calls, each with its clock reading, in order. -/
def run (E : Env) : List (Nat × Call) → PS5JoypadState → Option PS5JoypadState
  | [], s => some s
  | (now, c) :: rest, s =>
    match c.perform E now s with
    | some s1 => run E rest s1
    | none => none

/-- The finger index of a call stays inside `points[2]` (vacuous for the other mutators). -/
def Call.in_bounds : Call → Bool
  | .place_finger finger_nr _ _ => decide (0 ≤ finger_nr)
  | .release_finger finger_nr => decide (0 ≤ finger_nr)
  | _ => true

/-! ## Registration of callbacks -/

/-- The method `PS5Joypad::set_on_rumble`; the callback is named by a number. -/
def PS5Joypad.set_on_rumble (callback : Nat) (state : PS5JoypadState) : PS5JoypadState :=
  { state with on_rumble := some callback }

/-- The method `PS5Joypad::set_on_led`; the callback is named by a number. -/
def PS5Joypad.set_on_led (callback : Nat) (state : PS5JoypadState) : PS5JoypadState :=
  { state with on_led := some callback }

/-! ## Events from the kernel -/

/-- The error number `EINVAL` of `errno.h`. -/
def EINVAL : Int := 22

/-- The reply `uhid_get_report_reply_req` of `linux/uhid.h`: `err` is a 16-bit
field, `data` the payload buffer indexed by byte position. -/
structure uhid_get_report_reply where
  id : Nat
  err : Nat
  size : Nat
  data : Nat → Nat

/-- Modelled from the spec: `dualsense_output_report_usb` is declared in
`uhid/ps5.hpp`, which is not in the tree. These are the fields that
`on_uhid_event` reads from the output report: three validity flag bytes, the two
motor bytes and the three lightbar channels. -/
structure dualsense_output_report_usb where
  valid_flag0 : Nat
  valid_flag1 : Nat
  valid_flag2 : Nat
  motor_left : Nat
  motor_right : Nat
  lightbar_red : Nat
  lightbar_green : Nat
  lightbar_blue : Nat

/-- The events of `linux/uhid.h` as `on_uhid_event` distinguishes them: a
metadata query with its `id` and report number, an output report, anything else. -/
inductive uhid_event where
  | UHID_GET_REPORT (id rnum : Nat)
  | UHID_OUTPUT (report : dualsense_output_report_usb)
  | other

/-- What `on_uhid_event` does to the outside: a reply written with
`uhid::uhid_write`, or a call of a registered callback with its arguments. -/
inductive Effect where
  | reply (answer : uhid_get_report_reply)
  | rumble (callback : Nat) (left right : Int)
  | led (callback : Nat) (red green blue : Nat)

/-- The calls `std::copy(src, src + n, &dst[offset])`: the bytes of `src` land at
`offset`, the rest of `dst` is kept. -/
def copy_bytes (src : List Nat) (dst : Nat → Nat) (offset : Nat) : Nat → Nat :=
  fun j => if offset ≤ j ∧ j < offset + src.length then src.getD (j - offset) 0 else dst j

/-- The six bytes of the array `mac_address`. -/
def mac_bytes (state : PS5JoypadState) : List Nat :=
  (List.range 6).map (fun i => state.mac_address.getD i 0)

/-- Conversion of a floating-point value to `int`: truncation toward zero. -/
def float_to_int (v : ℚ) : Int := if 0 ≤ v then ⌊v⌋ else ⌈v⌉

/-- The expression `(motor / 255.0f) * 0xFFFF` in `float`, as passed to the `int`
parameter of the rumble callback. -/
def rumble_intensity (fl : ℚ → ℚ) (motor : Nat) : Int :=
  float_to_int (fl (fl ((motor : ℚ) / 255) * 65535))

/-- The static `on_uhid_event`. The state is only read; the result pairs it
with the effects in the order in which they happen. The fixed payloads are
shorter than the buffer `data`. -/
def on_uhid_event (E : Env) (state : PS5JoypadState) (ev : uhid_event) :
    PS5JoypadState × List Effect :=
  match ev with
  | .UHID_GET_REPORT id rnum =>
    let answer : uhid_get_report_reply := { id := id, err := 0, size := 0, data := fun _ => 0 }
    let answer : uhid_get_report_reply :=
      if rnum = E.CALIBRATION then
        { answer with
          data := copy_bytes E.ps5_calibration_info answer.data 0
          size := E.ps5_calibration_info.length }
      else if rnum = E.PAIRING_INFO then
        let data := copy_bytes E.ps5_pairing_info answer.data 0
        { answer with
          data := copy_bytes (mac_bytes state).reverse data 1
          size := E.ps5_pairing_info.length }
      else if rnum = E.FIRMWARE_INFO then
        { answer with
          data := copy_bytes E.ps5_firmware_info answer.data 0
          size := E.ps5_firmware_info.length }
      else { answer with err := ((-EINVAL) % 65536).toNat }
    (state, [Effect.reply answer])
  | .UHID_OUTPUT report =>
    let rumble : List Effect :=
      if (report.valid_flag0 &&& E.MOTOR_OR_COMPATIBLE_VIBRATION) != 0
          || (report.valid_flag2 &&& E.COMPATIBLE_VIBRATION) != 0 then
        let left := rumble_intensity E.fl32 report.motor_left
        let right := rumble_intensity E.fl32 report.motor_right
        match state.on_rumble with
        | some callback => [Effect.rumble callback left right]
        | none => []
      else []
    let led : List Effect :=
      if (report.valid_flag1 &&& E.LIGHTBAR_ENABLE) != 0 then
        match state.on_led with
        | some callback =>
          [Effect.led callback report.lightbar_red report.lightbar_green report.lightbar_blue]
        | none => []
      else []
    (state, rumble ++ led)
  | .other => (state, [])

/-! ## Device nodes -/

/-- The template `to_hex`: upper-case hexadecimal digits. -/
def to_hex (i : Nat) : List Char := (Nat.toDigits 16 i).map Char.toUpper

/-- The method `PS5Joypad::get_mac_address`: the six bytes in lower-case
hexadecimal without padding, separated by colons. -/
def PS5Joypad.get_mac_address (state : PS5JoypadState) : List Char :=
  let hex := fun (i : Nat) => Nat.toDigits 16 (state.mac_address.getD i 0)
  hex 0 ++ [':'] ++ hex 1 ++ [':'] ++ hex 2 ++ [':'] ++ hex 3 ++ [':'] ++ hex 4 ++ [':'] ++ hex 5

/-- The first string begins with the second. -/
def starts_with : List Char → List Char → Bool
  | _, [] => true
  | [], _ :: _ => false
  | a :: rest, b :: more => a == b && starts_with rest more

/-- The test `haystack.find(needle) != std::string::npos`. -/
def find_sub : List Char → List Char → Bool
  | [], needle => needle.isEmpty
  | c :: rest, needle => starts_with (c :: rest) needle || find_sub rest needle

/-- An entry of a directory `<uhid device>/input`: its path, whether it is a
directory, and the first line of its file `uniq` when that file exists. -/
structure input_dir_entry where
  path : List Char
  is_directory : Bool
  uniq : Option (List Char)

/-- An entry of `/sys/devices/virtual/misc/uhid/`: its file name, whether it is a
directory, and the entries of its subdirectory `input` when that exists. -/
structure uhid_dir_entry where
  filename : List Char
  is_directory : Bool
  input : Option (List input_dir_entry)

/-- The inner loop of `get_sys_nodes` over the entries of one `input` directory. -/
def scan_input_entries (nodes : List (List Char)) : List input_dir_entry → List (List Char)
  | [] => nodes
  | dev_entry :: rest =>
    if dev_entry.is_directory then
      match dev_entry.uniq with
      | some _line => scan_input_entries (nodes ++ [dev_entry.path]) rest
      | none => scan_input_entries nodes rest
    else scan_input_entries nodes rest

/-- The outer loop of `get_sys_nodes` over the entries of the base directory. -/
def scan_uhid_entries (target_id : List Char) (nodes : List (List Char)) :
    List uhid_dir_entry → List (List Char)
  | [] => nodes
  | uhid_entry :: rest =>
    if uhid_entry.is_directory && find_sub uhid_entry.filename target_id then
      match uhid_entry.input with
      | some dev_entries =>
        scan_uhid_entries target_id (scan_input_entries nodes dev_entries) rest
      | none => scan_uhid_entries target_id nodes rest
    else scan_uhid_entries target_id nodes rest

/-- The method `PS5Joypad::get_sys_nodes`; the argument is the content of the base
directory, `none` when it does not exist. The source computes `target_mac` and
reads the first line of `uniq`, and uses neither. -/
def PS5Joypad.get_sys_nodes (base : Option (List uhid_dir_entry)) (state : PS5JoypadState) :
    List (List Char) :=
  let _target_mac := PS5Joypad.get_mac_address state
  match base with
  | some uhid_entries => scan_uhid_entries (to_hex state.vendor_id) [] uhid_entries
  | none => []

/-- The call reaches `send_report`: every mutator does, except `place_finger`
and `release_finger` with an index that the guard `finger_nr <= 1` turns away. -/
def Call.transmits : Call → Bool
  | .place_finger finger_nr _ _ => decide (finger_nr ≤ 1)
  | .release_finger finger_nr => decide (finger_nr ≤ 1)
  | _ => true

/-- The number of calls of a sequence that reach `send_report`. -/
def transmit_count (calls : List (Nat × Call)) : Nat :=
  (calls.filter (fun c => c.2.transmits)).length

/-! ## A concrete environment -/

/-- A report with every field zero. -/
def zero_report : dualsense_input_report_usb :=
  { x := 0, y := 0, rx := 0, ry := 0, z := 0, rz := 0, seq_number := 0
    buttons := fun _ => 0, gyro := fun _ => 0, accel := fun _ => 0
    sensor_timestamp := 0
    points := fun _ => { contact := 0, id := 0, x_lo := 0, x_hi := 0, y_lo := 0, y_hi := 0 }
    battery_charge := 0, battery_status := 0 }

/-- One instance of the environment, used to exhibit inputs that meet the
hypotheses of the theorems: the button flags of the Moonlight protocol, the
DualSense hat codes and button bits, the axis range 0..255, exact arithmetic
for both floating-point formats, a linear congruential generator, the
DualSense report numbers and flag bits, and reply payloads of the DualSense
sizes (41, 20 and 64 bytes) with placeholder contents. -/
def ds_env : Env :=
  { DPAD_UP := 0x0001, DPAD_DOWN := 0x0002, DPAD_LEFT := 0x0004, DPAD_RIGHT := 0x0008
    START := 0x0010, BACK := 0x0020, HOME := 0x0400
    LEFT_STICK := 0x0040, RIGHT_STICK := 0x0080
    LEFT_BUTTON := 0x0100, RIGHT_BUTTON := 0x0200
    TOUCHPAD_FLAG := 0x100000, MISC_FLAG := 0x200000
    A := 0x1000, B := 0x2000, X := 0x4000, Y := 0x8000
    HAT_N := 0, HAT_NE := 1, HAT_E := 2, HAT_SE := 3, HAT_S := 4, HAT_SW := 5
    HAT_W := 6, HAT_NW := 7, HAT_NEUTRAL := 8
    SQUARE := 0x10, CROSS := 0x20, CIRCLE := 0x40, TRIANGLE := 0x80
    L1 := 0x01, R1 := 0x02, CREATE := 0x10, OPTIONS := 0x20, L3 := 0x40, R3 := 0x80
    PS_HOME := 0x01, TOUCHPAD := 0x02, MIC_MUTE := 0x04
    PS5_AXIS_MIN := 0, PS5_AXIS_MAX := 255
    SDL_STANDARD_GRAVITY := 980665 / 100000
    gyro_resolution := 1024
    default_report := { zero_report with x := 0x80, y := 0x80, rx := 0x80, ry := 0x80 }
    fl64 := fun q => q
    fl32 := fun q => q
    rng_seed := 1
    rng_draw := fun g => ((16807 * g) % 2147483647, (16807 * g) % 2147483647)
    CALIBRATION := 0x05, PAIRING_INFO := 0x09, FIRMWARE_INFO := 0x20
    ps5_calibration_info := 0x05 :: List.replicate 40 0xFF
    ps5_pairing_info :=
      [0x09, 0, 0, 0, 0, 0, 0, 0x08, 0x25, 0x00, 0x1E, 0x00, 0xEE, 0x74, 0xD0, 0xBC,
       0x00, 0x00, 0x00, 0x00]
    ps5_firmware_info := 0x20 :: List.replicate 63 0x11
    MOTOR_OR_COMPATIBLE_VIBRATION := 0x01, COMPATIBLE_VIBRATION := 0x04
    LIGHTBAR_ENABLE := 0x04 }

/-! ## Auxiliary definitions used in the statements -/

/-- The successor of a sequence number in the cycle 0, 1, ..., 254, 0. -/
def next_seq (v : Nat) : Nat := if v = 254 then 0 else v + 1

/-! ## Touch sequences -/

/-- A call of `place_finger` or `release_finger` with its finger index in {0,1}. -/
inductive TouchCall where
  | place (finger : Fin 2) (x y : Nat)
  | release (finger : Fin 2)

/-- The mutator call that a touch call stands for. -/
def TouchCall.lift : Nat × TouchCall → Nat × Call
  | (now, .place finger x y) => (now, Call.place_finger ((finger : Nat) : Int) x y)
  | (now, .release finger) => (now, Call.release_finger ((finger : Nat) : Int))

/-- The state after a sequence of touch calls (the bodies of the two methods). -/
def touch_run : List (Nat × TouchCall) → PS5JoypadState → PS5JoypadState
  | [], s => s
  | (now, .place finger x y) :: rest, s => touch_run rest (place_finger_at now finger x y s)
  | (now, .release finger) :: rest, s => touch_run rest (release_finger_at now finger s)

/-- Bookkeeping for one touch call: for each finger, whether `last_touch_id`
has been reset since the finger last went from released to pressed. A
placement of a released finger starts a contact and clears the mark of that
finger; a release made while the counter is at least 0x7E resets the counter
and sets both marks. -/
def reset_mark_step : TouchCall → PS5JoypadState → (Fin 2 → Bool) → Fin 2 → Bool
  | .place finger _ _, s, marks =>
    if (s.current_state.points finger).contact = 1 then Function.update marks finger false
    else marks
  | .release _, s, marks => if s.last_touch_id ≥ 0x7E then fun _ => true else marks

/-- The marks after a sequence of touch calls from state `s`, following the
states of `touch_run`. -/
def reset_marks : List (Nat × TouchCall) → PS5JoypadState → (Fin 2 → Bool) → Fin 2 → Bool
  | [], _, marks => marks
  | (now, .place finger x y) :: rest, s, marks =>
    reset_marks rest (place_finger_at now finger x y s)
      (reset_mark_step (.place finger x y) s marks)
  | (now, .release finger) :: rest, s, marks =>
    reset_marks rest (release_finger_at now finger s)
      (reset_mark_step (.release finger) s marks)

/-- The counter has been reset since the present contact of finger `i` began,
in the run of `calls` from a state in which no reset has happened yet. -/
def reset_since_contact (calls : List (Nat × TouchCall)) (s : PS5JoypadState) (i : Fin 2) :
    Bool :=
  reset_marks calls s (fun _ => false) i

/-- A finger is in contact when its `contact` field is 0 (1 means released). -/
def in_contact (s : PS5JoypadState) (i : Fin 2) : Prop :=
  (s.current_state.points i).contact = 0

instance (s : PS5JoypadState) (i : Fin 2) : Decidable (in_contact s i) := by
  unfold in_contact
  infer_instance

/-- What is observable of the touch state: contact flag and id of each finger,
and the id counter. -/
def touch_view (s : PS5JoypadState) : Nat × Nat × Nat × Nat × Nat :=
  ((s.current_state.points 0).contact, (s.current_state.points 0).id,
   (s.current_state.points 1).contact, (s.current_state.points 1).id, s.last_touch_id)

/-- Repeated place-then-release of one finger: one entry per cycle, giving the
clock reading and position of the placement and the clock reading of the release. -/
def tap_cycles (finger : Fin 2) : List (Nat × Nat × Nat × Nat) → List (Nat × TouchCall)
  | [] => []
  | (t1, x, y, t2) :: rest =>
    (t1, TouchCall.place finger x y) :: (t2, TouchCall.release finger) :: tap_cycles finger rest

/-- Finger 0 is placed and held, then finger 1 is tapped 125 times and placed again. -/
def shared_id_calls : List (Nat × TouchCall) :=
  (0, TouchCall.place 0 0 0) :: (tap_cycles 1 (List.replicate 125 (0, 0, 0, 0)) ++
    [(0, TouchCall.place 1 0 0)])

/-- Finger 0 is tapped 125 times, then both fingers are placed. -/
def counter_127_calls : List (Nat × TouchCall) :=
  tap_cycles 0 (List.replicate 125 (0, 0, 0, 0)) ++
    [(0, TouchCall.place 0 0 0), (0, TouchCall.place 1 0 0)]

/-- The invariant behind distinct ids: contact flags are 0 or 1, the id of a
finger in contact whose contact began after the last reset is at most the
counter, and two such fingers have different ids. -/
def ids_below_counter (s : PS5JoypadState) (marks : Fin 2 → Bool) : Prop :=
  (∀ i, (s.current_state.points i).contact = 0 ∨ (s.current_state.points i).contact = 1) ∧
  (∀ i, in_contact s i → marks i = false →
    (s.current_state.points i).id ≤ s.last_touch_id) ∧
  (in_contact s 0 → in_contact s 1 → marks 0 = false → marks 1 = false →
    (s.current_state.points 0).id ≠ (s.current_state.points 1).id)

/-- Finger 0 is tapped 126 times (the last release resets the counter while
finger 1 is released), then both fingers are placed. -/
def reset_between_contacts_calls : List (Nat × TouchCall) :=
  tap_cycles 0 (List.replicate 126 (0, 0, 0, 0)) ++
    [(0, TouchCall.place 0 0 0), (0, TouchCall.place 1 0 0)]

/-- The number of released fingers (contact flag 1). -/
def released_count (s : PS5JoypadState) : Nat :=
  (if (s.current_state.points 0).contact = 1 then 1 else 0) +
  (if (s.current_state.points 1).contact = 1 then 1 else 0)

/-- The position fields of touch point `i`: `(x_lo, x_hi, y_lo, y_hi)`. -/
def position_view (s : PS5JoypadState) (i : Fin 2) : Nat × Nat × Nat × Nat :=
  ((s.current_state.points i).x_lo, (s.current_state.points i).x_hi,
   (s.current_state.points i).y_lo, (s.current_state.points i).y_hi)

/-- Finger 0 is tapped 126 times and placed once more. -/
def allocation_127_calls : List (Nat × TouchCall) :=
  tap_cycles 0 (List.replicate 126 (0, 0, 0, 0)) ++ [(0, TouchCall.place 0 0 0)]

/-! ## The D-pad table of the spec -/

/-- The hat code that the spec's table gives for a set of D-pad directions: up is N,
up+right NE, right E, down+right SE, down S, down+left SW, left W, up+left NW, no
direction neutral; `none` when two opposite directions are set. -/
def hat_table (E : Env) (up down left right : Bool) : Option Nat :=
  match up, down, left, right with
  | true, false, false, false => some E.HAT_N
  | true, false, false, true => some E.HAT_NE
  | false, false, false, true => some E.HAT_E
  | false, true, false, true => some E.HAT_SE
  | false, true, false, false => some E.HAT_S
  | false, true, true, false => some E.HAT_SW
  | false, false, true, false => some E.HAT_W
  | true, false, true, false => some E.HAT_NW
  | false, false, false, false => some E.HAT_NEUTRAL
  | _, _, _, _ => none

/-- The byte layout of `buttons[0]`: the nine hat codes fit the low nibble and
the four face-button bits lie in the high nibble. -/
def hat_in_low_nibble (E : Env) : Prop :=
  (E.HAT_N < 16 ∧ E.HAT_NE < 16 ∧ E.HAT_E < 16 ∧ E.HAT_SE < 16 ∧ E.HAT_S < 16 ∧
    E.HAT_SW < 16 ∧ E.HAT_W < 16 ∧ E.HAT_NW < 16 ∧ E.HAT_NEUTRAL < 16) ∧
  (E.SQUARE % 16 = 0 ∧ E.TRIANGLE % 16 = 0 ∧ E.CROSS % 16 = 0 ∧ E.CIRCLE % 16 = 0)

instance (E : Env) : Decidable (hat_in_low_nibble E) := by
  unfold hat_in_low_nibble
  infer_instance

/-! ## Floating point and axes -/

/-- The standard model of rounding to `double` on the magnitudes that
`scale_value` meets: the rounded value of `q` is within `|q| / 2^53` of `q`
(so 0 rounds to 0). Exact arithmetic satisfies it, and so does IEEE 754
round-to-nearest binary64, which has no overflow or underflow on this range. -/
def rounds_like_double (fl : ℚ → ℚ) : Prop :=
  ∀ q : ℚ, (q = 0 ∨ (1 / 2 ^ 32 ≤ |q| ∧ |q| ≤ 2 ^ 32)) → |fl q - q| ≤ |q| / 2 ^ 53

/-- A value lies in the native axis range. -/
def in_axis_range (E : Env) (v : Int) : Prop :=
  E.PS5_AXIS_MIN ≤ v ∧ v ≤ E.PS5_AXIS_MAX

/-- The pair of axis fields that `set_stick` writes for a stick. -/
def stick_axes (stick_type : STICK_POSITION) (r : dualsense_input_report_usb) : Nat × Nat :=
  match stick_type with
  | .RS => (r.rx, r.ry)
  | .LS => (r.x, r.y)

/-! ## Definitions for the statements about kernel events -/

/-- The replies among the effects: id, error field, size and the first `size`
bytes of the payload of each. -/
def reply_payloads : List Effect → List (Nat × Nat × Nat × List Nat)
  | [] => []
  | Effect.reply answer :: rest =>
    (answer.id, answer.err, answer.size, (List.range answer.size).map answer.data) ::
      reply_payloads rest
  | _ :: rest => reply_payloads rest

/-- The calls of the rumble callback among the effects, with their arguments. -/
def rumble_calls : List Effect → List (Nat × Int × Int)
  | [] => []
  | Effect.rumble callback left right :: rest => (callback, left, right) :: rumble_calls rest
  | _ :: rest => rumble_calls rest

/-- The calls of the LED callback among the effects, with their arguments. -/
def led_calls : List Effect → List (Nat × Nat × Nat × Nat)
  | [] => []
  | Effect.led callback red green blue :: rest =>
    (callback, red, green, blue) :: led_calls rest
  | _ :: rest => led_calls rest

/-- The rumble condition of `on_uhid_event` on an output report. -/
def rumble_flagged (E : Env) (report : dualsense_output_report_usb) : Bool :=
  (report.valid_flag0 &&& E.MOTOR_OR_COMPATIBLE_VIBRATION) != 0
    || (report.valid_flag2 &&& E.COMPATIBLE_VIBRATION) != 0

/-- The lightbar condition of `on_uhid_event` on an output report. -/
def lightbar_flagged (E : Env) (report : dualsense_output_report_usb) : Bool :=
  (report.valid_flag1 &&& E.LIGHTBAR_ENABLE) != 0

/-- The three report numbers are pairwise different (they are the labels of one
`switch`). -/
def report_types_distinct (E : Env) : Prop :=
  E.CALIBRATION ≠ E.PAIRING_INFO ∧ E.CALIBRATION ≠ E.FIRMWARE_INFO ∧
    E.PAIRING_INFO ≠ E.FIRMWARE_INFO

instance (E : Env) : Decidable (report_types_distinct E) := by
  unfold report_types_distinct
  infer_instance

/-- The standard model of rounding to `float` on the magnitudes that the rumble
scaling meets: the rounded value of `q` is within `|q| / 2^24` of `q`. -/
def rounds_like_float (fl : ℚ → ℚ) : Prop :=
  ∀ q : ℚ, (q = 0 ∨ (1 / 2 ^ 32 ≤ |q| ∧ |q| ≤ 2 ^ 32)) → |fl q - q| ≤ |q| / 2 ^ 24

/-! ## Definitions for the statements about discovery, motion and hats -/

/-- A base directory with one device of the vendor 0x054C whose `uniq` file
holds an address that is not the one of the controller at hand. -/
def foreign_uniq_base : Option (List uhid_dir_entry) :=
  some [{ filename := "0003:054C:0CE6.000D".data
          is_directory := true
          input := some [{ path :=
                             "/sys/devices/virtual/misc/uhid/0003:054C:0CE6.000D/input/input58".data
                           is_directory := true
                           uniq := some "de:ad:be:ef:0:1".data }] }]

/-- The value that `set_motion` passes to `to_le_signed` next to a component `c`:
`c * SDL_STANDARD_GRAVITY * 100` for acceleration, `c * gyro_resolution` for
the gyroscope, in `float`. -/
def motion_value (E : Env) (type : MOTION_TYPE) (c : ℚ) : ℚ :=
  match type with
  | .ACCELERATION => E.fl32 (E.fl32 (c * E.SDL_STANDARD_GRAVITY) * 100)
  | .GYROSCOPE => E.fl32 (c * E.gyro_resolution)

/-- The three-element field that `set_motion` writes for a kind of sample. -/
def motion_field (type : MOTION_TYPE) (r : dualsense_input_report_usb) : Fin 3 → Nat :=
  match type with
  | .ACCELERATION => r.accel
  | .GYROSCOPE => r.gyro

/-- Rounding does not move a value across zero. -/
def sign_preserving (fl : ℚ → ℚ) : Prop :=
  ∀ q : ℚ, (0 ≤ q → 0 ≤ fl q) ∧ (q ≤ 0 → fl q ≤ 0)

/-- The hat codes of the DualSense report: N = 0 clockwise to NW = 7, neutral = 8. -/
def dualsense_hat_codes (E : Env) : Prop :=
  E.HAT_N = 0 ∧ E.HAT_NE = 1 ∧ E.HAT_E = 2 ∧ E.HAT_SE = 3 ∧ E.HAT_S = 4 ∧
    E.HAT_SW = 5 ∧ E.HAT_W = 6 ∧ E.HAT_NW = 7 ∧ E.HAT_NEUTRAL = 8

instance (E : Env) : Decidable (dualsense_hat_codes E) := by
  unfold dualsense_hat_codes
  infer_instance

/-! # Theorems -/

/-! ## The sequence counter -/

theorem send_report_dev (now : Nat) (s : PS5JoypadState) :
    (send_report now s).dev = (send_report now s).current_state :: s.dev := rfl

theorem send_report_seq_le (now : Nat) (s : PS5JoypadState) :
    (send_report now s).current_state.seq_number ≤ 254 := by
  simp only [send_report]
  split <;> omega

theorem send_report_seq (now : Nat) (s : PS5JoypadState)
    (h : s.current_state.seq_number ≤ 254) :
    (send_report now s).current_state.seq_number = next_seq s.current_state.seq_number := by
  simp only [send_report, next_seq]
  split <;> split <;> omega

/-- Every call either does nothing or is `send_report` applied to a state with
the same device log and the same sequence number. -/
theorem perform_shape (E : Env) (now : Nat) (c : Call) (s s1 : PS5JoypadState)
    (h : c.perform E now s = some s1) :
    s1 = s ∨ ∃ s0, s1 = send_report now s0 ∧ s0.dev = s.dev ∧
      s0.current_state.seq_number = s.current_state.seq_number := by
  cases c with
  | set_pressed_buttons pressed =>
    right
    simp only [Call.perform, Option.some.injEq] at h
    exact ⟨_, h.symm, rfl, rfl⟩
  | set_triggers left right =>
    right
    simp only [Call.perform, Option.some.injEq] at h
    exact ⟨_, h.symm, rfl, rfl⟩
  | set_stick stick_type x y =>
    right
    simp only [Call.perform, Option.some.injEq] at h
    cases stick_type <;> exact ⟨_, h.symm, rfl, rfl⟩
  | set_motion type x y z =>
    right
    simp only [Call.perform, Option.some.injEq] at h
    cases type <;> exact ⟨_, h.symm, rfl, rfl⟩
  | set_battery battery_state percentage =>
    right
    simp only [Call.perform, Option.some.injEq] at h
    exact ⟨_, h.symm, rfl, rfl⟩
  | place_finger finger_nr x y =>
    simp only [Call.perform, PS5Joypad.place_finger] at h
    split at h
    · split at h
      · right
        simp only [Option.some.injEq] at h
        refine ⟨_, h.symm, ?_, ?_⟩
        · simp only [place_finger_at]; split <;> rfl
        · simp only [place_finger_at]; split <;> rfl
      · exact absurd h (by simp)
    · left
      simp only [Option.some.injEq] at h
      exact h.symm
  | release_finger finger_nr =>
    simp only [Call.perform, PS5Joypad.release_finger] at h
    split at h
    · split at h
      · right
        simp only [Option.some.injEq] at h
        refine ⟨_, h.symm, ?_, ?_⟩
        · simp only [release_finger_at]; split <;> rfl
        · simp only [release_finger_at]; split <;> rfl
      · exact absurd h (by simp)
    · left
      simp only [Option.some.injEq] at h
      exact h.symm

theorem run_cons (E : Env) (now : Nat) (c : Call) (rest : List (Nat × Call))
    (s : PS5JoypadState) :
    run E ((now, c) :: rest) s = (c.perform E now s).bind (run E rest) := by
  simp only [run]
  cases c.perform E now s <;> rfl

/-- A call whose finger index is inside the array has a result. -/
theorem perform_isSome (E : Env) (now : Nat) (c : Call) (s : PS5JoypadState)
    (h : c.in_bounds = true) : (c.perform E now s).isSome = true := by
  cases c with
  | place_finger finger_nr x y =>
    simp only [Call.in_bounds, decide_eq_true_eq] at h
    simp only [Call.perform, PS5Joypad.place_finger, finger_index]
    by_cases h1 : finger_nr ≤ 1
    · have : finger_nr = 0 ∨ finger_nr = 1 := by omega
      rcases this with rfl | rfl <;> simp
    · simp [h1]
  | release_finger finger_nr =>
    simp only [Call.in_bounds, decide_eq_true_eq] at h
    simp only [Call.perform, PS5Joypad.release_finger, finger_index]
    by_cases h1 : finger_nr ≤ 1
    · have : finger_nr = 0 ∨ finger_nr = 1 := by omega
      rcases this with rfl | rfl <;> simp
    · simp [h1]
  | _ => rfl

theorem run_isSome (E : Env) (calls : List (Nat × Call)) (s : PS5JoypadState)
    (h : ∀ c ∈ calls, c.2.in_bounds = true) : (run E calls s).isSome = true := by
  induction calls generalizing s with
  | nil => rfl
  | cons a rest ih =>
    obtain ⟨now, c⟩ := a
    have hc := perform_isSome E now c s (h (now, c) (List.mem_cons_self _ _))
    rw [run_cons]
    obtain ⟨s1, hs1⟩ := Option.isSome_iff_exists.mp hc
    rw [hs1]
    exact ih s1 (fun d hd => h d (List.mem_cons_of_mem _ hd))

/-- The invariant of the sequence counter: the current value and every
transmitted value are at most 254. -/
theorem seq_invariant_step (E : Env) (now : Nat) (c : Call) (s s1 : PS5JoypadState)
    (h : c.perform E now s = some s1)
    (hs : s.current_state.seq_number ≤ 254 ∧ ∀ r ∈ s.dev, r.seq_number ≤ 254) :
    s1.current_state.seq_number ≤ 254 ∧ ∀ r ∈ s1.dev, r.seq_number ≤ 254 := by
  rcases perform_shape E now c s s1 h with rfl | ⟨s0, rfl, hdev, _⟩
  · exact hs
  · refine ⟨send_report_seq_le now s0, ?_⟩
    intro r hr
    rw [send_report_dev, hdev] at hr
    rcases List.mem_cons.mp hr with rfl | hr
    · exact send_report_seq_le now s0
    · exact hs.2 r hr

theorem seq_invariant_run (E : Env) (calls : List (Nat × Call)) (s s1 : PS5JoypadState)
    (h : run E calls s = some s1)
    (hs : s.current_state.seq_number ≤ 254 ∧ ∀ r ∈ s.dev, r.seq_number ≤ 254) :
    s1.current_state.seq_number ≤ 254 ∧ ∀ r ∈ s1.dev, r.seq_number ≤ 254 := by
  induction calls generalizing s with
  | nil =>
    simp only [run, Option.some.injEq] at h
    exact h ▸ hs
  | cons a rest ih =>
    obtain ⟨now, c⟩ := a
    rw [run_cons] at h
    cases hp : c.perform E now s with
    | none => simp [hp] at h
    | some s2 =>
      rw [hp] at h
      exact ih s2 h (seq_invariant_step E now c s s2 hp hs)

theorem constructor_seq (E : Env) (vendor_id : Nat) :
    (PS5Joypad.PS5Joypad E vendor_id).current_state.seq_number = E.default_report.seq_number ∧
    (PS5Joypad.PS5Joypad E vendor_id).dev = [] := ⟨rfl, rfl⟩

/-- A call that reaches `send_report` is `send_report` applied to a state with
the same device log and the same sequence number; any other call changes
nothing. -/
theorem perform_transmits (E : Env) (now : Nat) (c : Call) (s s1 : PS5JoypadState)
    (h : c.perform E now s = some s1) :
    (c.transmits = true → ∃ s0, s1 = send_report now s0 ∧ s0.dev = s.dev ∧
      s0.current_state.seq_number = s.current_state.seq_number) ∧
    (c.transmits = false → s1 = s) := by
  cases c with
  | set_pressed_buttons pressed =>
    simp only [Call.perform, Option.some.injEq] at h
    exact ⟨fun _ => ⟨_, h.symm, rfl, rfl⟩, fun ht => by simp [Call.transmits] at ht⟩
  | set_triggers left right =>
    simp only [Call.perform, Option.some.injEq] at h
    exact ⟨fun _ => ⟨_, h.symm, rfl, rfl⟩, fun ht => by simp [Call.transmits] at ht⟩
  | set_stick stick_type x y =>
    simp only [Call.perform, Option.some.injEq] at h
    refine ⟨fun _ => ?_, fun ht => by simp [Call.transmits] at ht⟩
    cases stick_type <;> exact ⟨_, h.symm, rfl, rfl⟩
  | set_motion type x y z =>
    simp only [Call.perform, Option.some.injEq] at h
    refine ⟨fun _ => ?_, fun ht => by simp [Call.transmits] at ht⟩
    cases type <;> exact ⟨_, h.symm, rfl, rfl⟩
  | set_battery battery_state percentage =>
    simp only [Call.perform, Option.some.injEq] at h
    exact ⟨fun _ => ⟨_, h.symm, rfl, rfl⟩, fun ht => by simp [Call.transmits] at ht⟩
  | place_finger finger_nr x y =>
    simp only [Call.perform, PS5Joypad.place_finger] at h
    simp only [Call.transmits, decide_eq_true_eq, decide_eq_false_iff_not]
    split at h
    · rename_i hle
      split at h
      · simp only [Option.some.injEq] at h
        refine ⟨fun _ => ⟨_, h.symm, ?_, ?_⟩, fun hn => absurd hle hn⟩
        · simp only [place_finger_at]; split <;> rfl
        · simp only [place_finger_at]; split <;> rfl
      · exact absurd h (by simp)
    · rename_i hgt
      simp only [Option.some.injEq] at h
      exact ⟨fun hle => absurd hle hgt, fun _ => h.symm⟩
  | release_finger finger_nr =>
    simp only [Call.perform, PS5Joypad.release_finger] at h
    simp only [Call.transmits, decide_eq_true_eq, decide_eq_false_iff_not]
    split at h
    · rename_i hle
      split at h
      · simp only [Option.some.injEq] at h
        refine ⟨fun _ => ⟨_, h.symm, ?_, ?_⟩, fun hn => absurd hle hn⟩
        · simp only [release_finger_at]; split <;> rfl
        · simp only [release_finger_at]; split <;> rfl
      · exact absurd h (by simp)
    · rename_i hgt
      simp only [Option.some.injEq] at h
      exact ⟨fun hle => absurd hle hgt, fun _ => h.symm⟩

theorem next_seq_eq (v : Nat) (h : v ≤ 254) : next_seq v = (v + 1) % 255 := by
  simp only [next_seq]
  split <;> omega

/-- One call advances the counter by one step of the cycle exactly when it
reaches `send_report`, and then it transmits exactly one report. -/
theorem perform_seq (E : Env) (now : Nat) (c : Call) (s s1 : PS5JoypadState)
    (h : c.perform E now s = some s1) (hs : s.current_state.seq_number ≤ 254) :
    (c.transmits = true →
      s1.dev = s1.current_state :: s.dev ∧
      s1.current_state.seq_number = next_seq s.current_state.seq_number) ∧
    (c.transmits = false → s1 = s) := by
  obtain ⟨h1, h2⟩ := perform_transmits E now c s s1 h
  refine ⟨fun ht => ?_, h2⟩
  obtain ⟨s0, rfl, hdev, hseq⟩ := h1 ht
  refine ⟨by rw [send_report_dev, hdev], ?_⟩
  rw [send_report_seq now s0 (hseq ▸ hs), hseq]

/-- Along a sequence of calls the counter advances by the number of calls that
reach `send_report`, modulo 255, and one report is transmitted for each. -/
theorem run_seq (E : Env) (calls : List (Nat × Call)) (s s1 : PS5JoypadState)
    (h : run E calls s = some s1) (hs : s.current_state.seq_number ≤ 254) :
    s1.current_state.seq_number = (s.current_state.seq_number + transmit_count calls) % 255 ∧
    s1.dev.length = s.dev.length + transmit_count calls := by
  induction calls generalizing s with
  | nil =>
    simp only [run, Option.some.injEq] at h
    subst h
    simp only [transmit_count, List.filter_nil, List.length_nil, Nat.add_zero]
    exact ⟨(Nat.mod_eq_of_lt (by omega)).symm, trivial⟩
  | cons a rest ih =>
    obtain ⟨now, c⟩ := a
    rw [run_cons] at h
    cases hp : c.perform E now s with
    | none => simp [hp] at h
    | some s2 =>
      rw [hp] at h
      obtain ⟨p1, p2⟩ := perform_seq E now c s s2 hp hs
      have hs2 : s2.current_state.seq_number ≤ 254 := by
        cases ht : c.transmits with
        | true =>
          rw [(p1 ht).2]
          simp only [next_seq]
          split <;> omega
        | false =>
          rw [p2 ht]
          exact hs
      obtain ⟨r1, r2⟩ := ih s2 h hs2
      cases ht : c.transmits with
      | true =>
        obtain ⟨q1, q2⟩ := p1 ht
        have hc : transmit_count ((now, c) :: rest) = transmit_count rest + 1 := by
          simp [transmit_count, List.filter_cons, ht]
        rw [r1, r2, hc, q2, next_seq_eq _ hs, q1, List.length_cons]
        constructor <;> omega
      | false =>
        have e := p2 ht
        subst e
        have hc : transmit_count ((now, c) :: rest) = transmit_count rest := by
          simp [transmit_count, List.filter_cons, ht]
        rw [r1, r2, hc]
        exact ⟨rfl, rfl⟩

/-- C1. Starting from a freshly constructed controller whose report starts
with a sequence number of at most 254, every sequence of mutator calls with
finger indices inside the touch-point array has a result, and in every state
so reached: the sequence counter and the sequence number of every transmitted
report lie in [0,254]; the counter is the starting value plus the number of
calls that reached `send_report`, modulo 255, and one report was transmitted
for each of these calls; `send_report` moves the counter to its successor in
the cycle 0, 1, ..., 254, 0 and transmits the report that carries it; and
each further mutator call that reaches `send_report` (all but a touch call
turned away by the guard) transmits exactly one report, which carries that
successor, while a call turned away changes nothing. -/
theorem seq_number_in_range (E : Env) (vendor_id : Nat) (calls : List (Nat × Call))
    (h0 : E.default_report.seq_number ≤ 254) :
    ((∀ c ∈ calls, c.2.in_bounds = true) →
      (run E calls (PS5Joypad.PS5Joypad E vendor_id)).isSome = true) ∧
    ∀ s, run E calls (PS5Joypad.PS5Joypad E vendor_id) = some s →
      s.current_state.seq_number ≤ 254 ∧
      (∀ r ∈ s.dev, r.seq_number ≤ 254) ∧
      s.current_state.seq_number =
        (E.default_report.seq_number + transmit_count calls) % 255 ∧
      s.dev.length = transmit_count calls ∧
      (∀ now : Nat,
        (send_report now s).current_state.seq_number = next_seq s.current_state.seq_number ∧
        (send_report now s).dev = (send_report now s).current_state :: s.dev) ∧
      ∀ (now : Nat) (c : Call) (s1 : PS5JoypadState), c.perform E now s = some s1 →
        (c.transmits = true →
          s1.dev = s1.current_state :: s.dev ∧
          s1.current_state.seq_number = next_seq s.current_state.seq_number) ∧
        (c.transmits = false → s1 = s) := by
  refine ⟨run_isSome E calls _, ?_⟩
  intro s hs
  have hstart : (PS5Joypad.PS5Joypad E vendor_id).current_state.seq_number ≤ 254 := by
    rw [(constructor_seq E vendor_id).1]; exact h0
  have hinv := seq_invariant_run E calls _ s hs
    ⟨hstart, by rw [(constructor_seq E vendor_id).2]; simp⟩
  obtain ⟨r1, r2⟩ := run_seq E calls _ s hs hstart
  rw [(constructor_seq E vendor_id).1] at r1
  rw [(constructor_seq E vendor_id).2] at r2
  refine ⟨hinv.1, hinv.2, r1, by simpa using r2, ?_, ?_⟩
  · intro now
    exact ⟨send_report_seq now s hinv.1, send_report_dev now s⟩
  · intro now c s1 hc
    exact perform_seq E now c s s1 hc hinv.1

set_option maxRecDepth 1000000 in
/-- C1, at a concrete input: in the concrete environment 254 calls of
`set_battery` on a fresh controller bring the counter to 254, and the call
`set_triggers(0, 255)` that follows transmits one report and brings it to 0. -/
theorem seq_number_in_range_witness :
    ds_env.default_report.seq_number ≤ 254 ∧
    ∃ s s1, run ds_env (List.replicate 254 (1000, Call.set_battery 2 50))
        (PS5Joypad.PS5Joypad ds_env 0x054C) = some s ∧
      s.current_state.seq_number = 254 ∧ s.dev.length = 254 ∧
      (Call.set_triggers 0 255).perform ds_env 2000 s = some s1 ∧
      s1.current_state.seq_number = 0 ∧ s1.dev = s1.current_state :: s.dev := by
  have T := seq_number_in_range ds_env 0x054C
    (List.replicate 254 (1000, Call.set_battery 2 50)) (by decide)
  have hb : ∀ c ∈ List.replicate 254 ((1000 : Nat), Call.set_battery 2 50),
      c.2.in_bounds = true := by
    intro c hc
    rw [List.eq_of_mem_replicate hc]
    rfl
  obtain ⟨s, hs⟩ := Option.isSome_iff_exists.mp (T.1 hb)
  obtain ⟨_, _, t3, t4, _, t6⟩ := T.2 s hs
  have hcount : transmit_count (List.replicate 254 ((1000 : Nat), Call.set_battery 2 50))
      = 254 := by decide
  have h254 : s.current_state.seq_number = 254 := by
    rw [t3, hcount]; decide
  obtain ⟨u1, u2⟩ := (t6 2000 (Call.set_triggers 0 255) _ rfl).1 rfl
  refine ⟨by decide, s, _, hs, h254, by rw [t4, hcount], rfl, ?_, u1⟩
  rw [u2, h254]
  rfl

/-! ## Hardware address -/

/-- C2. The generator of `generate_mac_address` is default-constructed at
every call, so the address does not depend on anything that differs between two
controllers: any two constructed controllers carry the same hardware address. -/
theorem generate_mac_address_repeats (E : Env) (vendor_id1 vendor_id2 : Nat) :
    (PS5Joypad.PS5Joypad E vendor_id1).mac_address =
      (PS5Joypad.PS5Joypad E vendor_id2).mac_address := rfl

/-! ## Touch ids -/

theorem place_finger_lift (now : Nat) (i : Fin 2) (x y : Nat) (s : PS5JoypadState) :
    PS5Joypad.place_finger now ((i : Nat) : Int) x y s = some (place_finger_at now i x y s) := by
  fin_cases i <;> simp [PS5Joypad.place_finger, finger_index]

theorem release_finger_lift (now : Nat) (i : Fin 2) (s : PS5JoypadState) :
    PS5Joypad.release_finger now ((i : Nat) : Int) s = some (release_finger_at now i s) := by
  fin_cases i <;> simp [PS5Joypad.release_finger, finger_index]

/-- A sequence of touch calls always has a result: the one computed by `touch_run`. -/
theorem run_lift (E : Env) (calls : List (Nat × TouchCall)) (s : PS5JoypadState) :
    run E (calls.map TouchCall.lift) s = some (touch_run calls s) := by
  induction calls generalizing s with
  | nil => rfl
  | cons a rest ih =>
    obtain ⟨now, c⟩ := a
    cases c with
    | place i x y =>
      simp only [List.map_cons, TouchCall.lift, run_cons, Call.perform, place_finger_lift,
        Option.some_bind, touch_run]
      exact ih _
    | release i =>
      simp only [List.map_cons, TouchCall.lift, run_cons, Call.perform, release_finger_lift,
        Option.some_bind, touch_run]
      exact ih _

theorem touch_run_append (l1 l2 : List (Nat × TouchCall)) (s : PS5JoypadState) :
    touch_run (l1 ++ l2) s = touch_run l2 (touch_run l1 s) := by
  induction l1 generalizing s with
  | nil => rfl
  | cons a rest ih =>
    obtain ⟨now, c⟩ := a
    cases c <;> simp only [List.cons_append, touch_run] <;> exact ih _

theorem place_at_contact (now : Nat) (i : Fin 2) (x y : Nat) (s : PS5JoypadState) :
    ((place_finger_at now i x y s).current_state.points i).contact = 0 := by
  simp only [place_finger_at, send_report]
  split <;> simp

theorem place_at_id (now : Nat) (i : Fin 2) (x y : Nat) (s : PS5JoypadState) :
    ((place_finger_at now i x y s).current_state.points i).id =
      if (s.current_state.points i).contact = 1 then s.last_touch_id + 1
      else (s.current_state.points i).id := by
  simp only [place_finger_at, send_report]
  split <;> simp

theorem place_at_counter (now : Nat) (i : Fin 2) (x y : Nat) (s : PS5JoypadState) :
    (place_finger_at now i x y s).last_touch_id =
      if (s.current_state.points i).contact = 1 then s.last_touch_id + 1
      else s.last_touch_id := by
  simp only [place_finger_at, send_report]
  split <;> simp

theorem place_at_other (now : Nat) (i j : Fin 2) (x y : Nat) (s : PS5JoypadState)
    (h : j ≠ i) :
    (place_finger_at now i x y s).current_state.points j = s.current_state.points j := by
  simp only [place_finger_at, send_report]
  split <;> simp [Function.update, h]

theorem release_at_contact (now : Nat) (i : Fin 2) (s : PS5JoypadState) :
    ((release_finger_at now i s).current_state.points i).contact = 1 := by
  simp only [release_finger_at, send_report, set_contact]
  split <;> simp

theorem release_at_id (now : Nat) (i : Fin 2) (s : PS5JoypadState) :
    ((release_finger_at now i s).current_state.points i).id =
      (s.current_state.points i).id := by
  simp only [release_finger_at, send_report, set_contact]
  split <;> simp

theorem release_at_counter (now : Nat) (i : Fin 2) (s : PS5JoypadState) :
    (release_finger_at now i s).last_touch_id =
      if s.last_touch_id ≥ 0x7E then 0 else s.last_touch_id := by
  simp only [release_finger_at, send_report]
  split <;> rfl

theorem release_at_other (now : Nat) (i j : Fin 2) (s : PS5JoypadState) (h : j ≠ i) :
    (release_finger_at now i s).current_state.points j = s.current_state.points j := by
  simp only [release_finger_at, send_report, set_contact]
  split <;> simp [Function.update, h]

theorem constructor_touch (E : Env) (vendor_id : Nat) :
    ((PS5Joypad.PS5Joypad E vendor_id).current_state.points 0).contact = 1 ∧
    ((PS5Joypad.PS5Joypad E vendor_id).current_state.points 1).contact = 1 ∧
    (PS5Joypad.PS5Joypad E vendor_id).last_touch_id = 0 := by
  simp [PS5Joypad.PS5Joypad, set_contact, generate_mac_address, PS5JoypadState.init,
    Function.update]

theorem fin_two_cases (i : Fin 2) : i = 0 ∨ i = 1 := by
  fin_cases i <;> simp

theorem place_keeps_ids_below_counter (now : Nat) (i : Fin 2) (x y : Nat)
    (s : PS5JoypadState) (marks : Fin 2 → Bool) (h : ids_below_counter s marks) :
    ids_below_counter (place_finger_at now i x y s)
      (reset_mark_step (TouchCall.place i x y) s marks) := by
  simp only [ids_below_counter, in_contact, Fin.forall_fin_two] at h ⊢
  rcases fin_two_cases i with rfl | rfl
  · have e0 := place_at_contact now 0 x y s
    have e1 := place_at_id now 0 x y s
    have e2 := place_at_counter now 0 x y s
    have e3 := place_at_other now 0 1 x y s (by decide)
    by_cases hc : (s.current_state.points 0).contact = 1
    · rw [if_pos hc] at e1 e2
      rw [e0, e1, e2, e3]
      simp only [reset_mark_step, if_pos hc, Function.update_same,
        Function.update_noteq (show (1 : Fin 2) ≠ 0 by decide)]
      cases hm1 : marks 1 <;> simp [hm1] at h ⊢ <;> omega
    · rw [if_neg hc] at e1 e2
      rw [e0, e1, e2, e3]
      simp only [reset_mark_step, if_neg hc]
      cases hm0 : marks 0 <;> cases hm1 : marks 1 <;> simp [hm0, hm1] at h ⊢ <;> omega
  · have e0 := place_at_contact now 1 x y s
    have e1 := place_at_id now 1 x y s
    have e2 := place_at_counter now 1 x y s
    have e3 := place_at_other now 1 0 x y s (by decide)
    by_cases hc : (s.current_state.points 1).contact = 1
    · rw [if_pos hc] at e1 e2
      rw [e0, e1, e2, e3]
      simp only [reset_mark_step, if_pos hc, Function.update_same,
        Function.update_noteq (show (0 : Fin 2) ≠ 1 by decide)]
      cases hm0 : marks 0 <;> simp [hm0] at h ⊢ <;> omega
    · rw [if_neg hc] at e1 e2
      rw [e0, e1, e2, e3]
      simp only [reset_mark_step, if_neg hc]
      cases hm0 : marks 0 <;> cases hm1 : marks 1 <;> simp [hm0, hm1] at h ⊢ <;> omega

theorem release_keeps_ids_below_counter (now : Nat) (i : Fin 2) (s : PS5JoypadState)
    (marks : Fin 2 → Bool) (h : ids_below_counter s marks) :
    ids_below_counter (release_finger_at now i s)
      (reset_mark_step (TouchCall.release i) s marks) := by
  simp only [ids_below_counter, in_contact, Fin.forall_fin_two] at h ⊢
  rcases fin_two_cases i with rfl | rfl
  · have e0 := release_at_contact now 0 s
    have e1 := release_at_id now 0 s
    have e2 := release_at_counter now 0 s
    have e3 := release_at_other now 0 1 s (by decide)
    by_cases hw : s.last_touch_id ≥ 0x7E
    · rw [if_pos hw] at e2
      rw [e0, e1, e2, e3]
      simp only [reset_mark_step, if_pos hw]
      simp at h ⊢
      omega
    · rw [if_neg hw] at e2
      rw [e0, e1, e2, e3]
      simp only [reset_mark_step, if_neg hw]
      cases hm0 : marks 0 <;> cases hm1 : marks 1 <;> simp [hm0, hm1] at h ⊢ <;> omega
  · have e0 := release_at_contact now 1 s
    have e1 := release_at_id now 1 s
    have e2 := release_at_counter now 1 s
    have e3 := release_at_other now 1 0 s (by decide)
    by_cases hw : s.last_touch_id ≥ 0x7E
    · rw [if_pos hw] at e2
      rw [e0, e1, e2, e3]
      simp only [reset_mark_step, if_pos hw]
      simp at h ⊢
      omega
    · rw [if_neg hw] at e2
      rw [e0, e1, e2, e3]
      simp only [reset_mark_step, if_neg hw]
      cases hm0 : marks 0 <;> cases hm1 : marks 1 <;> simp [hm0, hm1] at h ⊢ <;> omega

theorem touch_run_ids_below_counter (calls : List (Nat × TouchCall)) (s : PS5JoypadState)
    (marks : Fin 2 → Bool) (h : ids_below_counter s marks) :
    ids_below_counter (touch_run calls s) (reset_marks calls s marks) := by
  induction calls generalizing s marks with
  | nil => exact h
  | cons a rest ih =>
    obtain ⟨now, c⟩ := a
    cases c with
    | place i x y =>
      exact ih _ _ (place_keeps_ids_below_counter now i x y s marks h)
    | release i =>
      exact ih _ _ (release_keeps_ids_below_counter now i s marks h)

theorem constructor_ids_below_counter (E : Env) (vendor_id : Nat) :
    ids_below_counter (PS5Joypad.PS5Joypad E vendor_id) (fun _ => false) := by
  obtain ⟨h0, h1, _⟩ := constructor_touch E vendor_id
  simp only [ids_below_counter, in_contact, Fin.forall_fin_two]
  omega

set_option maxRecDepth 1000000 in
/-- C3, as stated, fails: finger 0 is placed and held (id 1), finger 1 is
tapped 125 times (ids 2 to 0x7E, the last release resets the counter) and
placed again; both fingers are then in contact (contact flag 0) with id 1. -/
theorem simultaneous_contacts_share_id :
    (run ds_env (shared_id_calls.map TouchCall.lift) (PS5Joypad.PS5Joypad ds_env 0x054C)).map
      touch_view = some (0, 1, 0, 1, 1) := by
  decide

/-- C3, amended. From a freshly constructed controller, every sequence of
`place_finger` and `release_finger` calls with finger index in {0,1} has a
result, and in the state reached two fingers that are both in contact have
different touch ids, provided that `last_touch_id` has not been reset (by a
`release_finger` call made while it is at least 0x7E) since either of the two
contacts began. Resets at any other time, before or between contacts that
have since ended, do not matter. -/
theorem simultaneous_contacts_differ (E : Env) (vendor_id : Nat)
    (calls : List (Nat × TouchCall)) :
    ∃ s, run E (calls.map TouchCall.lift) (PS5Joypad.PS5Joypad E vendor_id) = some s ∧
      (in_contact s 0 → in_contact s 1 →
        reset_since_contact calls (PS5Joypad.PS5Joypad E vendor_id) 0 = false →
        reset_since_contact calls (PS5Joypad.PS5Joypad E vendor_id) 1 = false →
        (s.current_state.points 0).id ≠ (s.current_state.points 1).id) :=
  ⟨_, run_lift E calls _,
    (touch_run_ids_below_counter calls _ _ (constructor_ids_below_counter E vendor_id)).2.2⟩

set_option maxRecDepth 1000000 in
/-- C3, amended, at a concrete input: finger 0 is tapped 126 times, so that the
counter is reset, and then both fingers are placed; both are in contact, no
reset has happened since their contacts began, and their ids are 1 and 2. -/
theorem simultaneous_contacts_differ_witness :
    ∃ s, run ds_env (reset_between_contacts_calls.map TouchCall.lift)
        (PS5Joypad.PS5Joypad ds_env 0x054C) = some s ∧
      (in_contact s 0 ∧ in_contact s 1 ∧
        reset_since_contact reset_between_contacts_calls
          (PS5Joypad.PS5Joypad ds_env 0x054C) 0 = false ∧
        reset_since_contact reset_between_contacts_calls
          (PS5Joypad.PS5Joypad ds_env 0x054C) 1 = false) ∧
      (s.current_state.points 0).id ≠ (s.current_state.points 1).id ∧
      touch_view s = (0, 1, 0, 2, 2) := by
  obtain ⟨s, hs, hd⟩ :=
    simultaneous_contacts_differ ds_env 0x054C reset_between_contacts_calls
  have e : s = touch_run reset_between_contacts_calls (PS5Joypad.PS5Joypad ds_env 0x054C) := by
    have := run_lift ds_env reset_between_contacts_calls (PS5Joypad.PS5Joypad ds_env 0x054C)
    rw [hs] at this
    exact Option.some.inj this
  have h0 : in_contact s 0 := by rw [e]; decide
  have h1 : in_contact s 1 := by rw [e]; decide
  have m0 : reset_since_contact reset_between_contacts_calls
      (PS5Joypad.PS5Joypad ds_env 0x054C) 0 = false := by decide
  have m1 : reset_since_contact reset_between_contacts_calls
      (PS5Joypad.PS5Joypad ds_env 0x054C) 1 = false := by decide
  refine ⟨s, hs, ⟨h0, h1, m0, m1⟩, hd h0 h1 m0 m1, ?_⟩
  rw [e]
  decide

theorem place_keeps_counter_bound (now : Nat) (i : Fin 2) (x y : Nat) (s : PS5JoypadState)
    (h : s.last_touch_id + released_count s ≤ 127) :
    (place_finger_at now i x y s).last_touch_id +
      released_count (place_finger_at now i x y s) ≤ 127 := by
  simp only [released_count] at h ⊢
  rcases fin_two_cases i with rfl | rfl
  · have e0 := place_at_contact now 0 x y s
    have e2 := place_at_counter now 0 x y s
    have e3 := place_at_other now 0 1 x y s (by decide)
    rw [e0, e2, e3]
    by_cases hc0 : (s.current_state.points 0).contact = 1 <;>
      by_cases hc1 : (s.current_state.points 1).contact = 1 <;>
      simp only [hc0, hc1, if_true, if_false, zero_ne_one] at h ⊢ <;> omega
  · have e0 := place_at_contact now 1 x y s
    have e2 := place_at_counter now 1 x y s
    have e3 := place_at_other now 1 0 x y s (by decide)
    rw [e0, e2, e3]
    by_cases hc0 : (s.current_state.points 0).contact = 1 <;>
      by_cases hc1 : (s.current_state.points 1).contact = 1 <;>
      simp only [hc0, hc1, if_true, if_false, zero_ne_one] at h ⊢ <;> omega

theorem release_keeps_counter_bound (now : Nat) (i : Fin 2) (s : PS5JoypadState)
    (h : s.last_touch_id + released_count s ≤ 127) :
    (release_finger_at now i s).last_touch_id +
      released_count (release_finger_at now i s) ≤ 127 := by
  simp only [released_count] at h ⊢
  rcases fin_two_cases i with rfl | rfl
  · have e0 := release_at_contact now 0 s
    have e2 := release_at_counter now 0 s
    have e3 := release_at_other now 0 1 s (by decide)
    rw [e0, e2, e3]
    by_cases hc0 : (s.current_state.points 0).contact = 1 <;>
      by_cases hc1 : (s.current_state.points 1).contact = 1 <;>
      by_cases hl : s.last_touch_id ≥ 0x7E <;>
      simp only [hc0, hc1, hl, if_true, if_false] at h ⊢ <;> omega
  · have e0 := release_at_contact now 1 s
    have e2 := release_at_counter now 1 s
    have e3 := release_at_other now 1 0 s (by decide)
    rw [e0, e2, e3]
    by_cases hc0 : (s.current_state.points 0).contact = 1 <;>
      by_cases hc1 : (s.current_state.points 1).contact = 1 <;>
      by_cases hl : s.last_touch_id ≥ 0x7E <;>
      simp only [hc0, hc1, hl, if_true, if_false] at h ⊢ <;> omega

theorem touch_run_counter_bound (calls : List (Nat × TouchCall)) (s : PS5JoypadState)
    (h : s.last_touch_id + released_count s ≤ 127) :
    (touch_run calls s).last_touch_id + released_count (touch_run calls s) ≤ 127 := by
  induction calls generalizing s with
  | nil => exact h
  | cons a rest ih =>
    obtain ⟨now, c⟩ := a
    cases c with
    | place i x y => exact ih _ (place_keeps_counter_bound now i x y s h)
    | release i => exact ih _ (release_keeps_counter_bound now i s h)

set_option maxRecDepth 1000000 in
/-- C4, as stated, fails: after 125 taps of finger 0 the counter is 125, and
placing both fingers raises it to 0x7F, above 0x7E. -/
theorem last_touch_id_reaches_0x7F :
    (run ds_env (counter_127_calls.map TouchCall.lift) (PS5Joypad.PS5Joypad ds_env 0x054C)).map
      touch_view = some (0, 126, 0, 127, 127) := by
  decide

/-- C4, amended. From a freshly constructed controller, every sequence of
`place_finger` and `release_finger` calls with finger index in {0,1} has a
result, and in the state reached `last_touch_id` lies in [0, 0x7F]. -/
theorem last_touch_id_le_0x7F (E : Env) (vendor_id : Nat) (calls : List (Nat × TouchCall)) :
    ∃ s, run E (calls.map TouchCall.lift) (PS5Joypad.PS5Joypad E vendor_id) = some s ∧
      s.last_touch_id ≤ 0x7F := by
  refine ⟨_, run_lift E calls _, ?_⟩
  obtain ⟨h0, h1, h2⟩ := constructor_touch E vendor_id
  have h := touch_run_counter_bound calls (PS5Joypad.PS5Joypad E vendor_id)
    (by simp only [released_count, h0, h1, h2]; decide)
  omega

/-- After whole taps of a released finger the finger is released again and the
counter has advanced by the number of taps modulo 0x7E. -/
theorem tap_cycles_counter (finger : Fin 2) (taps : List (Nat × Nat × Nat × Nat))
    (s : PS5JoypadState) (hc : (s.current_state.points finger).contact = 1)
    (hl : s.last_touch_id < 126) :
    ((touch_run (tap_cycles finger taps) s).current_state.points finger).contact = 1 ∧
    (touch_run (tap_cycles finger taps) s).last_touch_id =
      (s.last_touch_id + taps.length) % 126 := by
  induction taps generalizing s with
  | nil =>
    simp only [tap_cycles, touch_run, List.length_nil, Nat.add_zero]
    exact ⟨hc, (Nat.mod_eq_of_lt hl).symm⟩
  | cons t rest ih =>
    obtain ⟨t1, x, y, t2⟩ := t
    simp only [tap_cycles, touch_run, List.length_cons]
    have e1 := place_at_counter t1 finger x y s
    rw [if_pos hc] at e1
    have e2 := release_at_counter t2 finger (place_finger_at t1 finger x y s)
    have e3 := release_at_contact t2 finger (place_finger_at t1 finger x y s)
    rw [e1] at e2
    have hl2 : (release_finger_at t2 finger (place_finger_at t1 finger x y s)).last_touch_id
        < 126 := by
      rw [e2]; split_ifs <;> omega
    obtain ⟨r1, r2⟩ := ih _ e3 hl2
    refine ⟨r1, ?_⟩
    rw [r2, e2]
    split_ifs <;> omega

set_option maxRecDepth 1000000 in
/-- C5, as stated, fails: after 0x7E taps of finger 0 the next placement
assigns id 1, not 0. -/
theorem allocation_after_wrap_is_one :
    (run ds_env (allocation_127_calls.map TouchCall.lift)
      (PS5Joypad.PS5Joypad ds_env 0x054C)).map touch_view = some (0, 1, 1, 0, 1) ∧
    (run ds_env (allocation_127_calls.map TouchCall.lift)
      (PS5Joypad.PS5Joypad ds_env 0x054C)).map (fun s => (s.current_state.points 0).id)
      ≠ some 0 := by
  decide

/-- C5, amended. From a freshly constructed controller and using only finger 0,
`n` place/release cycles have a result in which finger 0 is released and the
counter is `n mod 0x7E`, and the next `place_finger` puts the finger in contact
with id `n mod 0x7E + 1`: the ids are 1, 2, ..., 0x7E in turn (each one more
than the one before), the release after id 0x7E resets the counter to 0, and
the allocation that follows receives id 1; id 0 is never assigned. -/
theorem touch_id_allocation (E : Env) (vendor_id : Nat)
    (taps : List (Nat × Nat × Nat × Nat)) (now x y : Nat) :
    ∃ s0, run E ((tap_cycles 0 taps).map TouchCall.lift)
        (PS5Joypad.PS5Joypad E vendor_id) = some s0 ∧
      ¬ in_contact s0 0 ∧ s0.last_touch_id = taps.length % 0x7E ∧
      ∃ s, run E [TouchCall.lift (now, TouchCall.place 0 x y)] s0 = some s ∧
        in_contact s 0 ∧
        (s.current_state.points 0).id = taps.length % 0x7E + 1 ∧
        s.last_touch_id = taps.length % 0x7E + 1 := by
  obtain ⟨h0, _, h2⟩ := constructor_touch E vendor_id
  obtain ⟨r1, r2⟩ := tap_cycles_counter 0 taps (PS5Joypad.PS5Joypad E vendor_id) h0
    (by rw [h2]; decide)
  rw [h2, Nat.zero_add] at r2
  refine ⟨_, run_lift E _ _, ?_, r2, _, run_lift E [(now, TouchCall.place 0 x y)] _, ?_⟩
  · simp only [in_contact, r1]
    decide
  · simp only [touch_run, in_contact]
    refine ⟨place_at_contact _ _ _ _ _, ?_, ?_⟩
    · rw [place_at_id, if_pos r1, r2]
    · rw [place_at_counter, if_pos r1, r2]

/-! ## Touch position -/

/-- C6. At `place_finger(0, 291, 1119)` on a fresh controller the code writes
`x_lo = 35`, `x_hi = 1` (so `x = x_lo + 256 * x_hi`), but `y_lo = 0` and
`y_hi = 69`: the expression `(y & 0x00F0) << 4`, cut to a byte, is always 0, so
`y_lo + 16 * y_hi = 1104` and the low nibble of `y = 1119` is lost. -/
theorem place_finger_drops_low_nibble_of_y :
    (PS5Joypad.place_finger 1000 0 291 1119 (PS5Joypad.PS5Joypad ds_env 0x054C)).map
      (fun s => position_view s 0) = some (35, 1, 0, 69) := by
  decide

/-! ## Buttons -/

theorem or_mod_two_pow (a b n : Nat) : (a ||| b) % 2 ^ n = a % 2 ^ n ||| b % 2 ^ n := by
  apply Nat.eq_of_testBit_eq
  intro i
  simp only [Nat.testBit_mod_two_pow, Nat.testBit_or, Bool.and_or_distrib_left]

theorem or_u8_high_nibble (b c : Nat) (hc : c % 16 = 0) : or_u8 b c % 16 = b % 16 := by
  have h := or_mod_two_pow b c 4
  simp only [or_u8]
  rw [Nat.mod_mod_of_dvd _ (by decide : 16 ∣ 256)]
  simpa [hc] using h

/-- The face-button statements leave the low nibble of `buttons[0]` alone. -/
theorem face_buttons_low_nibble (E : Env) (pressed b0 : Nat)
    (h : E.SQUARE % 16 = 0 ∧ E.TRIANGLE % 16 = 0 ∧ E.CROSS % 16 = 0 ∧ E.CIRCLE % 16 = 0) :
    face_buttons E pressed b0 % 16 = b0 % 16 := by
  obtain ⟨h1, h2, h3, h4⟩ := h
  simp only [face_buttons]
  split_ifs <;> simp only [or_u8_high_nibble, h1, h2, h3, h4]

theorem set_pressed_buttons_buttons (E : Env) (now pressed : Nat) (s : PS5JoypadState) :
    (PS5Joypad.set_pressed_buttons E now pressed s).current_state.buttons =
      ![face_buttons E pressed (hat_of_dpad E pressed 0), shoulder_buttons E pressed 0,
        system_buttons E pressed 0, 0] := rfl

/-- On a D-pad mask without opposite directions exactly one hat statement runs. -/
theorem hat_of_dpad_table (E : Env) (pressed : Nat)
    (hv : ¬(flag_set E.DPAD_UP pressed = true ∧ flag_set E.DPAD_DOWN pressed = true))
    (hh : ¬(flag_set E.DPAD_LEFT pressed = true ∧ flag_set E.DPAD_RIGHT pressed = true)) :
    ∃ h, hat_table E (flag_set E.DPAD_UP pressed) (flag_set E.DPAD_DOWN pressed)
        (flag_set E.DPAD_LEFT pressed) (flag_set E.DPAD_RIGHT pressed) = some h ∧
      hat_of_dpad E pressed 0 = h % 256 := by
  revert hv hh
  simp only [hat_of_dpad, or_u8, Nat.zero_or]
  cases flag_set E.DPAD_UP pressed <;> cases flag_set E.DPAD_DOWN pressed <;>
    cases flag_set E.DPAD_LEFT pressed <;> cases flag_set E.DPAD_RIGHT pressed <;>
    simp [hat_table]

/-- C7. For a bitmask with at most one vertical and at most one horizontal
D-pad bit, the hat code `h` of the spec's table (up N, up+right NE, right E,
down+right SE, down S, down+left SW, left W, up+left NW, none neutral) is what
`set_pressed_buttons` writes: `buttons[0]` is `h` with the face-button bits
or-ed in, and when hat codes occupy the low nibble and face bits the high
nibble, the low nibble of `buttons[0]` is exactly `h`. -/
theorem set_pressed_buttons_hat (E : Env) (now pressed : Nat) (s : PS5JoypadState)
    (hv : ¬(flag_set E.DPAD_UP pressed = true ∧ flag_set E.DPAD_DOWN pressed = true))
    (hh : ¬(flag_set E.DPAD_LEFT pressed = true ∧ flag_set E.DPAD_RIGHT pressed = true)) :
    ∃ h, hat_table E (flag_set E.DPAD_UP pressed) (flag_set E.DPAD_DOWN pressed)
        (flag_set E.DPAD_LEFT pressed) (flag_set E.DPAD_RIGHT pressed) = some h ∧
      (PS5Joypad.set_pressed_buttons E now pressed s).current_state.buttons 0 =
        face_buttons E pressed (h % 256) ∧
      (hat_in_low_nibble E →
        (PS5Joypad.set_pressed_buttons E now pressed s).current_state.buttons 0 % 16 = h) := by
  obtain ⟨h, ht, hd⟩ := hat_of_dpad_table E pressed hv hh
  refine ⟨h, ht, ?_, ?_⟩
  · rw [set_pressed_buttons_buttons, ← hd]; rfl
  · intro hl
    rw [set_pressed_buttons_buttons]
    show face_buttons E pressed (hat_of_dpad E pressed 0) % 16 = h
    rw [face_buttons_low_nibble E pressed _ hl.2, hd,
      Nat.mod_mod_of_dvd _ (by decide : 16 ∣ 256)]
    have hlt : h < 16 := by
      obtain ⟨h1, h2, h3, h4, h5, h6, h7, h8, h9⟩ := hl.1
      revert ht
      cases flag_set E.DPAD_UP pressed <;> cases flag_set E.DPAD_DOWN pressed <;>
        cases flag_set E.DPAD_LEFT pressed <;> cases flag_set E.DPAD_RIGHT pressed <;>
        simp only [hat_table, Option.some.injEq, reduceCtorEq, false_implies] <;>
        intro ht <;> omega
    exact Nat.mod_eq_of_lt hlt

/-- C7, at a concrete input: up+left together with the cross button (A) in the
concrete environment gives hat NW in the low nibble of `buttons[0]`. -/
theorem set_pressed_buttons_hat_witness :
    ¬(flag_set ds_env.DPAD_UP 0x1005 = true ∧ flag_set ds_env.DPAD_DOWN 0x1005 = true) ∧
    ¬(flag_set ds_env.DPAD_LEFT 0x1005 = true ∧ flag_set ds_env.DPAD_RIGHT 0x1005 = true) ∧
    hat_in_low_nibble ds_env ∧
    (PS5Joypad.set_pressed_buttons ds_env 1000 0x1005
      (PS5Joypad.PS5Joypad ds_env 0x054C)).current_state.buttons 0 % 16 = ds_env.HAT_NW := by
  obtain ⟨h, ht, _, hn⟩ := set_pressed_buttons_hat ds_env 1000 0x1005
    (PS5Joypad.PS5Joypad ds_env 0x054C) (by decide) (by decide)
  refine ⟨by decide, by decide, by decide, ?_⟩
  have e : h = ds_env.HAT_NW := by
    have : hat_table ds_env (flag_set ds_env.DPAD_UP 0x1005) (flag_set ds_env.DPAD_DOWN 0x1005)
        (flag_set ds_env.DPAD_LEFT 0x1005) (flag_set ds_env.DPAD_RIGHT 0x1005) =
        some ds_env.HAT_NW := by decide
    rw [this] at ht
    exact (Option.some.inj ht).symm
  rw [← e]
  exact hn (by decide)

/-- C8. The four button bytes after `set_pressed_buttons` are a function of the
bitmask alone: whatever the two prior states (and clock readings) are, the
resulting bytes are equal, so no hat value or button bit of an earlier call
survives. -/
theorem set_pressed_buttons_clears (E : Env) (pressed : Nat) (now1 now2 : Nat)
    (s1 s2 : PS5JoypadState) :
    (PS5Joypad.set_pressed_buttons E now1 pressed s1).current_state.buttons =
      (PS5Joypad.set_pressed_buttons E now2 pressed s2).current_state.buttons := by
  rw [set_pressed_buttons_buttons, set_pressed_buttons_buttons]

/-! ## Scaling -/

/-- A value within 1/2 of an integer rounds to that integer. -/
theorem std_round_eq (v : ℚ) (m : Int) (h : |v - m| < 1 / 2) : std_round v = m := by
  rw [abs_lt] at h
  obtain ⟨h1, h2⟩ := h
  simp only [std_round]
  split
  · rw [Int.floor_eq_iff]
    constructor <;> linarith
  · rw [neg_eq_iff_eq_neg, Int.floor_eq_iff]
    push_cast
    constructor <;> linarith

/-- For odd `D` the exact quotient `n * d / D` stays `1 / (2 * D)` clear of every
half-integer: its distance to the integer `(2 * n * d + D) / (2 * D)` is at most
`1 / 2 - 1 / (2 * D)`. -/
theorem exact_near_integer (D n d : Int) (hD : 0 < D) (hodd : D % 2 = 1) :
    |((n * d : Int) : ℚ) / (D : ℚ) - (((2 * (n * d) + D) / (2 * D) : Int) : ℚ)|
      ≤ 1 / 2 - 1 / (2 * (D : ℚ)) := by
  have hDq : (0 : ℚ) < D := by exact_mod_cast hD
  obtain ⟨t, ht⟩ : ∃ t : Int, t = 2 * (n * d) + D := ⟨_, rfl⟩
  rw [← ht]
  obtain ⟨m, hm⟩ : ∃ m : Int, m = t / (2 * D) := ⟨_, rfl⟩
  rw [← hm]
  have h2D : 0 < 2 * D := by omega
  have e1 : 2 * D * (t / (2 * D)) + t % (2 * D) = t := Int.ediv_add_emod t (2 * D)
  rw [← hm] at e1
  have r0 : 0 ≤ t % (2 * D) := Int.emod_nonneg _ (by omega)
  have r1 : t % (2 * D) < 2 * D := Int.emod_lt_of_pos _ h2D
  have r2 : (t % (2 * D)) % 2 = t % 2 := Int.emod_emod_of_dvd t (Dvd.intro D rfl)
  have t2 : t % 2 = 1 := by omega
  have lo : 2 * D * m + 1 ≤ 2 * (n * d) + D := by omega
  have hi : 2 * (n * d) + D ≤ 2 * D * m + 2 * D - 1 := by omega
  have loq : (2 * (D : ℚ) * m + 1 : ℚ) ≤ (2 * ((n * d : Int) : ℚ) + D) := by
    exact_mod_cast lo
  have hiq : (2 * ((n * d : Int) : ℚ) + D) ≤ (2 * (D : ℚ) * m + 2 * D - 1 : ℚ) := by
    exact_mod_cast hi
  have key : (1 / 2 - 1 / (2 * (D : ℚ))) * D = D / 2 - 1 / 2 := by
    field_simp
    ring
  rw [abs_le]
  constructor
  · rw [le_sub_iff_add_le, le_div_iff₀ hDq]
    nlinarith
  · rw [sub_le_iff_le_add, div_le_iff₀ hDq]
    nlinarith

/-- The product computed by `scale_value` with two roundings is within
`33423361 / 2^53` of the exact quotient `n * d / D`. -/
theorem product_error (fl : ℚ → ℚ) (hfl : rounds_like_double fl) (D n d : Int)
    (hD : 0 < D) (hD2 : D ≤ 65535) (hd0 : 0 ≤ d) (hd1 : d ≤ 255) (hn0 : 0 ≤ n)
    (hn1 : n ≤ 65536) :
    |fl (fl ((d : ℚ) / (D : ℚ)) * (n : ℚ)) - ((n * d : Int) : ℚ) / (D : ℚ)|
      ≤ 33423361 / 2 ^ 53 := by
  have hDq : (1 : ℚ) ≤ D := by exact_mod_cast hD
  have hDq2 : (D : ℚ) ≤ 65535 := by exact_mod_cast hD2
  have hdq0 : (0 : ℚ) ≤ d := by exact_mod_cast hd0
  have hdq1 : (d : ℚ) ≤ 255 := by exact_mod_cast hd1
  have hnq0 : (0 : ℚ) ≤ n := by exact_mod_cast hn0
  have hnq1 : (n : ℚ) ≤ 65536 := by exact_mod_cast hn1
  have hDpos : (0 : ℚ) < D := by linarith
  obtain ⟨s, hs⟩ : ∃ s : ℚ, s = (d : ℚ) / (D : ℚ) := ⟨_, rfl⟩
  have e_eq : ((n * d : Int) : ℚ) / (D : ℚ) = s * n := by
    rw [hs]; push_cast; field_simp; ring
  rw [e_eq, ← hs]
  have hs0 : 0 ≤ s := by rw [hs]; exact div_nonneg hdq0 hDpos.le
  have hs1 : s ≤ 255 := by
    rw [hs, div_le_iff₀ hDpos]; nlinarith
  have hs_range : s = 0 ∨ (1 / 2 ^ 32 ≤ |s| ∧ |s| ≤ 2 ^ 32) := by
    rcases eq_or_lt_of_le hd0 with h | h
    · left; rw [hs, ← h]; simp
    · right
      have hd1' : (1 : ℚ) ≤ d := by exact_mod_cast (show (1 : Int) ≤ d by omega)
      rw [abs_of_nonneg hs0]
      refine ⟨?_, by linarith⟩
      rw [hs, le_div_iff₀ hDpos]
      norm_num
      nlinarith
  have hfs := hfl s hs_range
  rw [abs_of_nonneg hs0] at hfs
  obtain ⟨s1, hs1def⟩ : ∃ s1 : ℚ, s1 = fl s := ⟨_, rfl⟩
  rw [← hs1def] at hfs ⊢
  have hclose : |s1 * n - s * n| ≤ 16711680 / 2 ^ 53 := by
    rw [← sub_mul, abs_mul, abs_of_nonneg hnq0]
    calc |s1 - s| * n ≤ (s / 2 ^ 53) * n := mul_le_mul_of_nonneg_right hfs hnq0
      _ ≤ (255 / 2 ^ 53) * 65536 := by
        apply mul_le_mul _ hnq1 hnq0 (by norm_num)
        exact div_le_div_of_nonneg_right hs1 (by norm_num)
      _ = 16711680 / 2 ^ 53 := by norm_num
  have hsn : |s * n| ≤ 16711680 := by
    rw [abs_of_nonneg (mul_nonneg hs0 hnq0)]
    calc s * n ≤ 255 * 65536 := mul_le_mul hs1 hnq1 hnq0 (by norm_num)
      _ = 16711680 := by norm_num
  have hpabs : |s1 * n| ≤ 16711681 := by
    calc |s1 * n| = |(s1 * n - s * n) + s * n| := by ring_nf
      _ ≤ |s1 * n - s * n| + |s * n| := abs_add _ _
      _ ≤ 16711680 / 2 ^ 53 + 16711680 := add_le_add hclose hsn
      _ ≤ 16711681 := by norm_num
  have hp_range : s1 * n = 0 ∨ (1 / 2 ^ 32 ≤ |s1 * n| ∧ |s1 * n| ≤ 2 ^ 32) := by
    rcases eq_or_lt_of_le hn0 with h | h
    · left; rw [← h]; simp
    rcases eq_or_lt_of_le hd0 with h2 | h2
    · left
      have : s = 0 := by rw [hs, ← h2]; simp
      rw [this] at hfs
      have : s1 = 0 := by
        have := abs_nonneg (s1 - 0)
        have h3 : |s1 - 0| = 0 := le_antisymm (by simpa using hfs) this
        simpa using h3
      rw [this]; simp
    · right
      have hn1' : (1 : ℚ) ≤ n := by exact_mod_cast (show (1 : Int) ≤ n by omega)
      have hd1' : (1 : ℚ) ≤ d := by exact_mod_cast (show (1 : Int) ≤ d by omega)
      have hslow : 1 / 65535 ≤ s := by
        rw [hs, le_div_iff₀ hDpos]; nlinarith
      have hs1low : 1 / 65536 ≤ s1 := by
        have := (abs_le.mp hfs).1
        have h4 : s / 2 ^ 53 ≤ s / 2 := by
          apply div_le_div_of_nonneg_left hs0 (by norm_num) (by norm_num)
        nlinarith
      have hpos : 0 ≤ s1 * n := mul_nonneg (by linarith) hnq0
      refine ⟨?_, by linarith [hpabs]⟩
      rw [abs_of_nonneg hpos]
      calc (1 : ℚ) / 2 ^ 32 ≤ 1 / 65536 * 1 := by norm_num
        _ ≤ s1 * n := mul_le_mul hs1low hn1' (by norm_num) (by linarith)
  have hfp := hfl (s1 * n) hp_range
  calc |fl (s1 * n) - s * n| = |(fl (s1 * n) - s1 * n) + (s1 * n - s * n)| := by ring_nf
    _ ≤ |fl (s1 * n) - s1 * n| + |s1 * n - s * n| := abs_add _ _
    _ ≤ |s1 * n| / 2 ^ 53 + 16711680 / 2 ^ 53 := add_le_add hfp hclose
    _ ≤ 16711681 / 2 ^ 53 + 16711680 / 2 ^ 53 := by
      apply add_le_add_right
      exact div_le_div_of_nonneg_right hpabs (by norm_num)
    _ = 33423361 / 2 ^ 53 := by norm_num

/-- With a rounding that behaves like `double`, `scale_value` returns the exact
quotient rounded to the nearest integer, computed in integers. -/
theorem scale_value_eq (fl : ℚ → ℚ) (hfl : rounds_like_double fl)
    (input input_start input_end output_start output_end : Int)
    (hD : 0 < input_end - input_start) (hD2 : input_end - input_start ≤ 65535)
    (hodd : (input_end - input_start) % 2 = 1)
    (hd0 : 0 ≤ output_end - output_start) (hd1 : output_end - output_start ≤ 255)
    (hn0 : 0 ≤ input - input_start) (hn1 : input - input_start ≤ 65536) :
    scale_value fl input input_start input_end output_start output_end =
      output_start + (2 * ((input - input_start) * (output_end - output_start)) +
        (input_end - input_start)) / (2 * (input_end - input_start)) := by
  simp only [scale_value]
  congr 1
  apply std_round_eq
  have h1 := product_error fl hfl _ _ _ hD hD2 hd0 hd1 hn0 hn1
  have h2 := exact_near_integer _ (input - input_start) (output_end - output_start) hD hodd
  have hDq : (0 : ℚ) < ((input_end - input_start : Int) : ℚ) := by exact_mod_cast hD
  have hDq2 : ((input_end - input_start : Int) : ℚ) ≤ 65535 := by exact_mod_cast hD2
  have h3 : ∀ q : ℚ, 0 < q → q ≤ 65535 → (33423361 : ℚ) / 2 ^ 53 < 1 / (2 * q) := by
    intro q hq0 hq1
    rw [lt_div_iff₀ (by linarith)]
    norm_num
    linarith
  have h5 := h3 _ hDq hDq2
  have h4 := abs_sub_le
    (fl (fl (((output_end - output_start : Int) : ℚ) / ((input_end - input_start : Int) : ℚ)) *
      ((input - input_start : Int) : ℚ)))
    ((((input - input_start) * (output_end - output_start) : Int) : ℚ) /
      ((input_end - input_start : Int) : ℚ))
    ((((2 * ((input - input_start) * (output_end - output_start)) +
        (input_end - input_start)) / (2 * (input_end - input_start)) : Int) : ℚ))
  linarith

/-- The trigger mapping [0,255] to the native range, in integers. -/
theorem trigger_scale (E : Env) (hfl : rounds_like_double E.fl64)
    (hle : E.PS5_AXIS_MIN ≤ E.PS5_AXIS_MAX) (hspan : E.PS5_AXIS_MAX - E.PS5_AXIS_MIN ≤ 255)
    (a : Int) (h0 : 0 ≤ a) (h1 : a ≤ 255) :
    scale_value E.fl64 a 0 255 E.PS5_AXIS_MIN E.PS5_AXIS_MAX =
      E.PS5_AXIS_MIN + (2 * (a * (E.PS5_AXIS_MAX - E.PS5_AXIS_MIN)) + 255) / 510 := by
  have h := scale_value_eq E.fl64 hfl a 0 255 E.PS5_AXIS_MIN E.PS5_AXIS_MAX (by norm_num)
    (by norm_num) (by norm_num) (by omega) (by omega) (by omega) (by omega)
  norm_num at h
  exact h

/-- The stick mapping [-32768,32767] to the native range, in integers; the
input 32768 (the negation of -32768) is covered as well. -/
theorem stick_scale (E : Env) (hfl : rounds_like_double E.fl64)
    (hle : E.PS5_AXIS_MIN ≤ E.PS5_AXIS_MAX) (hspan : E.PS5_AXIS_MAX - E.PS5_AXIS_MIN ≤ 255)
    (a : Int) (h0 : -32768 ≤ a) (h1 : a ≤ 32768) :
    scale_value E.fl64 a (-32768) 32767 E.PS5_AXIS_MIN E.PS5_AXIS_MAX =
      E.PS5_AXIS_MIN +
        (2 * ((a + 32768) * (E.PS5_AXIS_MAX - E.PS5_AXIS_MIN)) + 65535) / 131070 := by
  have h := scale_value_eq E.fl64 hfl a (-32768) 32767 E.PS5_AXIS_MIN E.PS5_AXIS_MAX
    (by norm_num) (by norm_num) (by norm_num) (by omega) (by omega) (by omega) (by omega)
  norm_num at h
  exact h

theorem trigger_scale_mono (E : Env) (hfl : rounds_like_double E.fl64)
    (hle : E.PS5_AXIS_MIN ≤ E.PS5_AXIS_MAX) (hspan : E.PS5_AXIS_MAX - E.PS5_AXIS_MIN ≤ 255)
    (a b : Int) (h0 : 0 ≤ a) (hab : a ≤ b) (h1 : b ≤ 255) :
    scale_value E.fl64 a 0 255 E.PS5_AXIS_MIN E.PS5_AXIS_MAX ≤
      scale_value E.fl64 b 0 255 E.PS5_AXIS_MIN E.PS5_AXIS_MAX := by
  rw [trigger_scale E hfl hle hspan a h0 (by omega),
    trigger_scale E hfl hle hspan b (by omega) h1]
  have hm : a * (E.PS5_AXIS_MAX - E.PS5_AXIS_MIN) ≤ b * (E.PS5_AXIS_MAX - E.PS5_AXIS_MIN) :=
    mul_le_mul_of_nonneg_right hab (by omega)
  omega

theorem stick_scale_mono (E : Env) (hfl : rounds_like_double E.fl64)
    (hle : E.PS5_AXIS_MIN ≤ E.PS5_AXIS_MAX) (hspan : E.PS5_AXIS_MAX - E.PS5_AXIS_MIN ≤ 255)
    (a b : Int) (h0 : -32768 ≤ a) (hab : a ≤ b) (h1 : b ≤ 32768) :
    scale_value E.fl64 a (-32768) 32767 E.PS5_AXIS_MIN E.PS5_AXIS_MAX ≤
      scale_value E.fl64 b (-32768) 32767 E.PS5_AXIS_MIN E.PS5_AXIS_MAX := by
  rw [stick_scale E hfl hle hspan a h0 (by omega), stick_scale E hfl hle hspan b (by omega) h1]
  have hm : (a + 32768) * (E.PS5_AXIS_MAX - E.PS5_AXIS_MIN) ≤
      (b + 32768) * (E.PS5_AXIS_MAX - E.PS5_AXIS_MIN) :=
    mul_le_mul_of_nonneg_right (by omega) (by omega)
  omega

theorem trigger_scale_range (E : Env) (hfl : rounds_like_double E.fl64)
    (hle : E.PS5_AXIS_MIN ≤ E.PS5_AXIS_MAX) (hspan : E.PS5_AXIS_MAX - E.PS5_AXIS_MIN ≤ 255)
    (a : Int) (h0 : 0 ≤ a) (h1 : a ≤ 255) :
    in_axis_range E (scale_value E.fl64 a 0 255 E.PS5_AXIS_MIN E.PS5_AXIS_MAX) := by
  rw [in_axis_range, trigger_scale E hfl hle hspan a h0 h1]
  have hm0 : 0 ≤ a * (E.PS5_AXIS_MAX - E.PS5_AXIS_MIN) := mul_nonneg h0 (by omega)
  have hm1 : a * (E.PS5_AXIS_MAX - E.PS5_AXIS_MIN) ≤ 255 * (E.PS5_AXIS_MAX - E.PS5_AXIS_MIN) :=
    mul_le_mul_of_nonneg_right h1 (by omega)
  omega

theorem stick_scale_range (E : Env) (hfl : rounds_like_double E.fl64)
    (hle : E.PS5_AXIS_MIN ≤ E.PS5_AXIS_MAX) (hspan : E.PS5_AXIS_MAX - E.PS5_AXIS_MIN ≤ 255)
    (a : Int) (h0 : -32768 ≤ a) (h1 : a ≤ 32768) :
    in_axis_range E (scale_value E.fl64 a (-32768) 32767 E.PS5_AXIS_MIN E.PS5_AXIS_MAX) := by
  rw [in_axis_range, stick_scale E hfl hle hspan a h0 h1]
  have hm0 : 0 ≤ (a + 32768) * (E.PS5_AXIS_MAX - E.PS5_AXIS_MIN) :=
    mul_nonneg (by omega) (by omega)
  have hm1 : (a + 32768) * (E.PS5_AXIS_MAX - E.PS5_AXIS_MIN) ≤
      65536 * (E.PS5_AXIS_MAX - E.PS5_AXIS_MIN) :=
    mul_le_mul_of_nonneg_right (by omega) (by omega)
  omega

/-- A value of the byte range is stored unchanged in a `uint8_t` field. -/
theorem to_u8_of_byte (v : Int) (h0 : 0 ≤ v) (h1 : v ≤ 255) : to_u8 v = v.toNat := by
  simp only [to_u8]
  rw [Int.emod_eq_of_lt h0 (by omega)]

theorem exact_rounds_like_double : rounds_like_double (fun q => q) := by
  intro q _
  simp only [sub_self, abs_zero]
  positivity

/-- C9. With a rounding of `double` arithmetic within the standard error bound
and a native axis range inside the byte range, `scale_value` is exact at both
endpoints and monotonic on the trigger range [0,255] and on the stick range
[-32768,32767], and `set_triggers(0,255)` writes `PS5_AXIS_MIN` to `z` and
`PS5_AXIS_MAX` to `rz`. -/
theorem scale_value_endpoints_monotone (E : Env) (hfl : rounds_like_double E.fl64)
    (hmin : 0 ≤ E.PS5_AXIS_MIN) (hle : E.PS5_AXIS_MIN ≤ E.PS5_AXIS_MAX)
    (hmax : E.PS5_AXIS_MAX ≤ 255) :
    (scale_value E.fl64 0 0 255 E.PS5_AXIS_MIN E.PS5_AXIS_MAX = E.PS5_AXIS_MIN ∧
      scale_value E.fl64 255 0 255 E.PS5_AXIS_MIN E.PS5_AXIS_MAX = E.PS5_AXIS_MAX ∧
      ∀ a b : Int, 0 ≤ a → a < b → b ≤ 255 →
        scale_value E.fl64 a 0 255 E.PS5_AXIS_MIN E.PS5_AXIS_MAX ≤
          scale_value E.fl64 b 0 255 E.PS5_AXIS_MIN E.PS5_AXIS_MAX) ∧
    (scale_value E.fl64 (-32768) (-32768) 32767 E.PS5_AXIS_MIN E.PS5_AXIS_MAX
        = E.PS5_AXIS_MIN ∧
      scale_value E.fl64 32767 (-32768) 32767 E.PS5_AXIS_MIN E.PS5_AXIS_MAX
        = E.PS5_AXIS_MAX ∧
      ∀ a b : Int, -32768 ≤ a → a < b → b ≤ 32767 →
        scale_value E.fl64 a (-32768) 32767 E.PS5_AXIS_MIN E.PS5_AXIS_MAX ≤
          scale_value E.fl64 b (-32768) 32767 E.PS5_AXIS_MIN E.PS5_AXIS_MAX) ∧
    ∀ (now : Nat) (s : PS5JoypadState),
      ((PS5Joypad.set_triggers E now 0 255 s).current_state.z : Int) = E.PS5_AXIS_MIN ∧
      ((PS5Joypad.set_triggers E now 0 255 s).current_state.rz : Int) = E.PS5_AXIS_MAX := by
  have hspan : E.PS5_AXIS_MAX - E.PS5_AXIS_MIN ≤ 255 := by omega
  have t0 : scale_value E.fl64 0 0 255 E.PS5_AXIS_MIN E.PS5_AXIS_MAX = E.PS5_AXIS_MIN := by
    rw [trigger_scale E hfl hle hspan 0 (by norm_num) (by norm_num)]
    omega
  have t1 : scale_value E.fl64 255 0 255 E.PS5_AXIS_MIN E.PS5_AXIS_MAX = E.PS5_AXIS_MAX := by
    rw [trigger_scale E hfl hle hspan 255 (by norm_num) (by norm_num)]
    omega
  refine ⟨⟨t0, t1, ?_⟩, ⟨?_, ?_, ?_⟩, ?_⟩
  · intro a b ha hab hb
    exact trigger_scale_mono E hfl hle hspan a b ha (by omega) hb
  · rw [stick_scale E hfl hle hspan (-32768) (by norm_num) (by norm_num)]
    omega
  · rw [stick_scale E hfl hle hspan 32767 (by norm_num) (by norm_num)]
    omega
  · intro a b ha hab hb
    exact stick_scale_mono E hfl hle hspan a b ha (by omega) (by omega)
  · intro now s
    have ez : (PS5Joypad.set_triggers E now 0 255 s).current_state.z =
        to_u8 (scale_value E.fl64 0 0 255 E.PS5_AXIS_MIN E.PS5_AXIS_MAX) := rfl
    have erz : (PS5Joypad.set_triggers E now 0 255 s).current_state.rz =
        to_u8 (scale_value E.fl64 255 0 255 E.PS5_AXIS_MIN E.PS5_AXIS_MAX) := rfl
    rw [ez, erz, t0, t1, to_u8_of_byte _ hmin (by omega), to_u8_of_byte _ (by omega) hmax]
    omega

/-- C9, at a concrete input: exact arithmetic and the axis range 0..255. -/
theorem scale_value_endpoints_monotone_witness :
    (rounds_like_double ds_env.fl64 ∧ 0 ≤ ds_env.PS5_AXIS_MIN ∧
      ds_env.PS5_AXIS_MIN ≤ ds_env.PS5_AXIS_MAX ∧ ds_env.PS5_AXIS_MAX ≤ 255) ∧
    scale_value ds_env.fl64 255 0 255 ds_env.PS5_AXIS_MIN ds_env.PS5_AXIS_MAX
      = ds_env.PS5_AXIS_MAX ∧
    ((PS5Joypad.set_triggers ds_env 1000 0 255
      (PS5Joypad.PS5Joypad ds_env 0x054C)).current_state.rz : Int) = ds_env.PS5_AXIS_MAX :=
  ⟨⟨exact_rounds_like_double, by decide, by decide, by decide⟩,
   (scale_value_endpoints_monotone ds_env exact_rounds_like_double
      (by decide) (by decide) (by decide)).1.2.1,
   ((scale_value_endpoints_monotone ds_env exact_rounds_like_double
      (by decide) (by decide) (by decide)).2.2 1000 (PS5Joypad.PS5Joypad ds_env 0x054C)).2⟩

/-- C10. With a rounding of `double` arithmetic within the standard error bound
and a native axis range inside the byte range: for either stick and all
`x`, `y` in [-32768, 32767], `set_stick` scales `x` and the negation of `y`
(also for `y = -32768`, whose negation is 32768) to values inside
[PS5_AXIS_MIN, PS5_AXIS_MAX] and stores exactly these two values in the axis
fields of the stick; for all trigger values in [0,255], `set_triggers` does the
same for `z` and `rz`. -/
theorem axis_values_in_range (E : Env) (hfl : rounds_like_double E.fl64)
    (hmin : 0 ≤ E.PS5_AXIS_MIN) (hle : E.PS5_AXIS_MIN ≤ E.PS5_AXIS_MAX)
    (hmax : E.PS5_AXIS_MAX ≤ 255) :
    (∀ (now : Nat) (stick_type : STICK_POSITION) (x y : Int) (s : PS5JoypadState),
      -32768 ≤ x → x ≤ 32767 → -32768 ≤ y → y ≤ 32767 →
      in_axis_range E (scale_value E.fl64 x (-32768) 32767 E.PS5_AXIS_MIN E.PS5_AXIS_MAX) ∧
      in_axis_range E (scale_value E.fl64 (-y) (-32768) 32767 E.PS5_AXIS_MIN E.PS5_AXIS_MAX) ∧
      stick_axes stick_type (PS5Joypad.set_stick E now stick_type x y s).current_state =
        ((scale_value E.fl64 x (-32768) 32767 E.PS5_AXIS_MIN E.PS5_AXIS_MAX).toNat,
         (scale_value E.fl64 (-y) (-32768) 32767 E.PS5_AXIS_MIN E.PS5_AXIS_MAX).toNat)) ∧
    (∀ (now : Nat) (left right : Int) (s : PS5JoypadState),
      0 ≤ left → left ≤ 255 → 0 ≤ right → right ≤ 255 →
      in_axis_range E (scale_value E.fl64 left 0 255 E.PS5_AXIS_MIN E.PS5_AXIS_MAX) ∧
      in_axis_range E (scale_value E.fl64 right 0 255 E.PS5_AXIS_MIN E.PS5_AXIS_MAX) ∧
      (PS5Joypad.set_triggers E now left right s).current_state.z =
        (scale_value E.fl64 left 0 255 E.PS5_AXIS_MIN E.PS5_AXIS_MAX).toNat ∧
      (PS5Joypad.set_triggers E now left right s).current_state.rz =
        (scale_value E.fl64 right 0 255 E.PS5_AXIS_MIN E.PS5_AXIS_MAX).toNat) := by
  have hspan : E.PS5_AXIS_MAX - E.PS5_AXIS_MIN ≤ 255 := by omega
  constructor
  · intro now stick_type x y s hx0 hx1 hy0 hy1
    have rx := stick_scale_range E hfl hle hspan x hx0 (by omega)
    have ry := stick_scale_range E hfl hle hspan (-y) (by omega) (by omega)
    refine ⟨rx, ry, ?_⟩
    have ex := to_u8_of_byte _ (le_trans hmin rx.1) (le_trans rx.2 hmax)
    have ey := to_u8_of_byte _ (le_trans hmin ry.1) (le_trans ry.2 hmax)
    cases stick_type
    · show (to_u8 _, to_u8 _) = _
      rw [ex, ey]
    · show (to_u8 _, to_u8 _) = _
      rw [ex, ey]
  · intro now left right s hl0 hl1 hr0 hr1
    have rl := trigger_scale_range E hfl hle hspan left hl0 hl1
    have rr := trigger_scale_range E hfl hle hspan right hr0 hr1
    refine ⟨rl, rr, ?_, ?_⟩
    · show to_u8 _ = _
      exact to_u8_of_byte _ (le_trans hmin rl.1) (le_trans rl.2 hmax)
    · show to_u8 _ = _
      exact to_u8_of_byte _ (le_trans hmin rr.1) (le_trans rr.2 hmax)

/-- C10, at a concrete input: the left stick at `x = 32767`, `y = -32768` in the
concrete environment. -/
theorem axis_values_in_range_witness :
    (rounds_like_double ds_env.fl64 ∧ 0 ≤ ds_env.PS5_AXIS_MIN ∧
      ds_env.PS5_AXIS_MIN ≤ ds_env.PS5_AXIS_MAX ∧ ds_env.PS5_AXIS_MAX ≤ 255) ∧
    ((-32768 : Int) ≤ 32767 ∧ (32767 : Int) ≤ 32767 ∧ (-32768 : Int) ≤ -32768 ∧
      (-32768 : Int) ≤ 32767) ∧
    in_axis_range ds_env
      (scale_value ds_env.fl64 (-(-32768)) (-32768) 32767
        ds_env.PS5_AXIS_MIN ds_env.PS5_AXIS_MAX) :=
  ⟨⟨exact_rounds_like_double, by decide, by decide, by decide⟩,
   ⟨by decide, by decide, by decide, by decide⟩,
   ((axis_values_in_range ds_env exact_rounds_like_double
      (by decide) (by decide) (by decide)).1 1000 STICK_POSITION.LS 32767 (-32768)
      (PS5Joypad.PS5Joypad ds_env 0x054C) (by decide) (by decide) (by decide) (by decide)).2.1⟩

/-! ## Battery -/

/-- C11. For a percentage in [0,100] and a battery state that fits the status
nibble, `set_battery` writes `battery_charge = percentage div 10` (truncating
division, a value in [0,10]) and the given state into `battery_status`. -/
theorem set_battery_charge (now battery_state : Nat) (percentage : Int) (s : PS5JoypadState)
    (h0 : 0 ≤ percentage) (h1 : percentage ≤ 100) (hs : battery_state < 16) :
    ((PS5Joypad.set_battery now battery_state percentage s).current_state.battery_charge : Int)
      = Int.tdiv percentage 10 ∧
    (PS5Joypad.set_battery now battery_state percentage s).current_state.battery_charge ≤ 10 ∧
    (PS5Joypad.set_battery now battery_state percentage s).current_state.battery_status
      = battery_state := by
  have hc : (PS5Joypad.set_battery now battery_state percentage s).current_state.battery_charge
      = ((Int.tdiv percentage 10) % 16).toNat := rfl
  have hst : (PS5Joypad.set_battery now battery_state percentage s).current_state.battery_status
      = battery_state % 16 := rfl
  have hd : Int.tdiv percentage 10 = percentage / 10 :=
    Int.tdiv_eq_ediv h0 (by decide)
  rw [hc, hst, hd]
  refine ⟨by omega, by omega, Nat.mod_eq_of_lt hs⟩

/-- C11, at concrete inputs: the percentages 0, 9, 10, 99 and 100 with state 2. -/
theorem set_battery_charge_witness :
    ((0 : Int) ≤ 99 ∧ (99 : Int) ≤ 100 ∧ (2 : Nat) < 16) ∧
    ((PS5Joypad.set_battery 1000 2 99
      (PS5Joypad.PS5Joypad ds_env 0x054C)).current_state.battery_charge : Int) = 9 ∧
    ((PS5Joypad.set_battery 1000 2 0
      (PS5Joypad.PS5Joypad ds_env 0x054C)).current_state.battery_charge : Int) = 0 ∧
    ((PS5Joypad.set_battery 1000 2 9
      (PS5Joypad.PS5Joypad ds_env 0x054C)).current_state.battery_charge : Int) = 0 ∧
    ((PS5Joypad.set_battery 1000 2 10
      (PS5Joypad.PS5Joypad ds_env 0x054C)).current_state.battery_charge : Int) = 1 ∧
    ((PS5Joypad.set_battery 1000 2 100
      (PS5Joypad.PS5Joypad ds_env 0x054C)).current_state.battery_charge : Int) = 10 :=
  ⟨⟨by decide, by decide, by decide⟩,
   (set_battery_charge 1000 2 99 _ (by decide) (by decide) (by decide)).1,
   (set_battery_charge 1000 2 0 _ (by decide) (by decide) (by decide)).1,
   (set_battery_charge 1000 2 9 _ (by decide) (by decide) (by decide)).1,
   (set_battery_charge 1000 2 10 _ (by decide) (by decide) (by decide)).1,
   (set_battery_charge 1000 2 100 _ (by decide) (by decide) (by decide)).1⟩

/-! ## Metadata queries -/

theorem mac_bytes_reverse (state : PS5JoypadState) :
    (mac_bytes state).reverse =
      [state.mac_address.getD 5 0, state.mac_address.getD 4 0, state.mac_address.getD 3 0,
       state.mac_address.getD 2 0, state.mac_address.getD 1 0, state.mac_address.getD 0 0] :=
  rfl

/-- Bytes copied from the start of a zeroed buffer. -/
theorem copy_bytes_zero_offset (src : List Nat) (dst : Nat → Nat) (j : Nat)
    (h : j < src.length) : copy_bytes src dst 0 j = src.getD j 0 := by
  simp [copy_bytes, h]

/-- The reversed address lands in positions 1 to 6. -/
theorem copy_mac_inside (state : PS5JoypadState) (dst : Nat → Nat) (i : Nat) (h : i < 6) :
    copy_bytes (mac_bytes state).reverse dst 1 (1 + i) = state.mac_address.getD (5 - i) 0 := by
  rw [mac_bytes_reverse]
  interval_cases i <;> simp [copy_bytes]

/-- Positions other than 1 to 6 keep what the buffer held. -/
theorem copy_mac_outside (state : PS5JoypadState) (dst : Nat → Nat) (j : Nat)
    (h : j = 0 ∨ 7 ≤ j) : copy_bytes (mac_bytes state).reverse dst 1 j = dst j := by
  rw [mac_bytes_reverse]
  have : ¬(1 ≤ j ∧ j < 1 + 6) := by omega
  simp [copy_bytes, this]

theorem pairing_info_event (E : Env) (state : PS5JoypadState) (id : Nat)
    (hd : E.PAIRING_INFO ≠ E.CALIBRATION) :
    on_uhid_event E state (uhid_event.UHID_GET_REPORT id E.PAIRING_INFO) =
      (state, [Effect.reply
        { id := id, err := 0, size := E.ps5_pairing_info.length
          data := copy_bytes (mac_bytes state).reverse
            (copy_bytes E.ps5_pairing_info (fun _ => 0) 0) 1 }]) := by
  simp [on_uhid_event, hd]

/-- C12. The reply to a pairing-info query has error 0, the id of the query,
the length of the pairing blob as size, the stored hardware address in
reverse byte order in payload positions 1 to 6 (`data[1+i] = mac_address[5-i]`),
and the bytes of the pairing blob at every other payload position. -/
theorem pairing_info_reply (E : Env) (state : PS5JoypadState) (id : Nat)
    (hd : E.PAIRING_INFO ≠ E.CALIBRATION) :
    ∃ answer, on_uhid_event E state (uhid_event.UHID_GET_REPORT id E.PAIRING_INFO) =
        (state, [Effect.reply answer]) ∧
      answer.err = 0 ∧ answer.id = id ∧ answer.size = E.ps5_pairing_info.length ∧
      (∀ i, i < 6 → answer.data (1 + i) = state.mac_address.getD (5 - i) 0) ∧
      (∀ j, j < E.ps5_pairing_info.length → (j = 0 ∨ 7 ≤ j) →
        answer.data j = E.ps5_pairing_info.getD j 0) := by
  refine ⟨_, pairing_info_event E state id hd, rfl, rfl, rfl, ?_, ?_⟩
  · intro i hi
    exact copy_mac_inside state _ i hi
  · intro j hj hout
    show copy_bytes (mac_bytes state).reverse _ 1 j = _
    rw [copy_mac_outside state _ j hout, copy_bytes_zero_offset _ _ j hj]

/-- C12, at a concrete input: a freshly constructed controller in the concrete
environment, query id 7. -/
theorem pairing_info_reply_witness :
    ds_env.PAIRING_INFO ≠ ds_env.CALIBRATION ∧
    ∃ answer, on_uhid_event ds_env (PS5Joypad.PS5Joypad ds_env 0x054C)
        (uhid_event.UHID_GET_REPORT 7 ds_env.PAIRING_INFO) =
        (PS5Joypad.PS5Joypad ds_env 0x054C, [Effect.reply answer]) ∧
      answer.err = 0 ∧ answer.id = 7 ∧ answer.size = ds_env.ps5_pairing_info.length ∧
      (∀ i, i < 6 → answer.data (1 + i) =
        (PS5Joypad.PS5Joypad ds_env 0x054C).mac_address.getD (5 - i) 0) ∧
      (∀ j, j < ds_env.ps5_pairing_info.length → (j = 0 ∨ 7 ≤ j) →
        answer.data j = ds_env.ps5_pairing_info.getD j 0) :=
  ⟨by decide, pairing_info_reply ds_env (PS5Joypad.PS5Joypad ds_env 0x054C) 7 (by decide)⟩

/-- C13, as stated, fails for the pairing-info kind: on a freshly constructed
controller the reply to a pairing-info query has error 0 and size 20, but its
payload is not the fixed pairing blob: positions 1 to 6 hold the hardware
address (167, 241, 217, 42, 130, 200) in reverse order. -/
theorem pairing_reply_is_not_the_fixed_blob :
    reply_payloads (on_uhid_event ds_env (PS5Joypad.PS5Joypad ds_env 0x054C)
      (uhid_event.UHID_GET_REPORT 7 ds_env.PAIRING_INFO)).2 =
      [(7, 0, 20, [9, 200, 130, 42, 217, 241, 167, 8, 37, 0, 30, 0, 238, 116, 208, 188,
        0, 0, 0, 0])] ∧
    reply_payloads (on_uhid_event ds_env (PS5Joypad.PS5Joypad ds_env 0x054C)
      (uhid_event.UHID_GET_REPORT 7 ds_env.PAIRING_INFO)).2 ≠
      [(7, 0, 20, ds_env.ps5_pairing_info)] := by
  decide

/-- C13, amended. Every metadata query is answered by exactly one reply, which
carries the id of the query. For a report number that is none of calibration,
pairing-info and firmware-info the reply carries the 16-bit pattern of
`-EINVAL` as error and size 0. For calibration and firmware-info it carries
error 0, the length of the matching fixed blob as size and the bytes of that
blob as payload. For pairing-info it carries error 0, the length of the
pairing blob as size and the bytes of that blob except in positions 1 to 6,
which hold the hardware address in reverse order. -/
theorem get_report_reply (E : Env) (state : PS5JoypadState) (id rnum : Nat)
    (hd : report_types_distinct E) :
    ∃ answer, on_uhid_event E state (uhid_event.UHID_GET_REPORT id rnum) =
        (state, [Effect.reply answer]) ∧
      answer.id = id ∧
      (rnum ≠ E.CALIBRATION → rnum ≠ E.PAIRING_INFO → rnum ≠ E.FIRMWARE_INFO →
        (answer.err : Int) = 65536 - EINVAL ∧ answer.size = 0) ∧
      (rnum = E.CALIBRATION →
        answer.err = 0 ∧ answer.size = E.ps5_calibration_info.length ∧
        ∀ j, j < E.ps5_calibration_info.length →
          answer.data j = E.ps5_calibration_info.getD j 0) ∧
      (rnum = E.FIRMWARE_INFO →
        answer.err = 0 ∧ answer.size = E.ps5_firmware_info.length ∧
        ∀ j, j < E.ps5_firmware_info.length →
          answer.data j = E.ps5_firmware_info.getD j 0) ∧
      (rnum = E.PAIRING_INFO →
        answer.err = 0 ∧ answer.size = E.ps5_pairing_info.length ∧
        (∀ i, i < 6 → answer.data (1 + i) = state.mac_address.getD (5 - i) 0) ∧
        ∀ j, j < E.ps5_pairing_info.length → (j = 0 ∨ 7 ≤ j) →
          answer.data j = E.ps5_pairing_info.getD j 0) := by
  obtain ⟨h1, h2, h3⟩ := hd
  by_cases hc : rnum = E.CALIBRATION
  · subst hc
    refine ⟨{ id := id, err := 0, size := E.ps5_calibration_info.length
              data := copy_bytes E.ps5_calibration_info (fun _ => 0) 0 },
      by simp [on_uhid_event], rfl, fun h => absurd rfl h, ?_, fun h => absurd h h2,
      fun h => absurd h h1⟩
    intro _
    exact ⟨rfl, rfl, fun j hj => copy_bytes_zero_offset _ (fun _ => 0) j hj⟩
  by_cases hp : rnum = E.PAIRING_INFO
  · subst hp
    obtain ⟨answer, e1, e2, e3, e4, e5, e6⟩ := pairing_info_reply E state id hc
    exact ⟨answer, e1, e3, fun _ h => absurd rfl h, fun h => absurd h hc,
      fun h => absurd h h3, fun _ => ⟨e2, e4, e5, e6⟩⟩
  by_cases hf : rnum = E.FIRMWARE_INFO
  · subst hf
    refine ⟨{ id := id, err := 0, size := E.ps5_firmware_info.length
              data := copy_bytes E.ps5_firmware_info (fun _ => 0) 0 },
      by simp [on_uhid_event, hc, hp], rfl, fun _ _ h => absurd rfl h, fun h => absurd h hc,
      ?_, fun h => absurd h hp⟩
    intro _
    exact ⟨rfl, rfl, fun j hj => copy_bytes_zero_offset _ (fun _ => 0) j hj⟩
  · refine ⟨{ id := id, err := ((-EINVAL) % 65536).toNat, size := 0, data := fun _ => 0 },
      by simp [on_uhid_event, hc, hp, hf], rfl, ?_, fun h => absurd h hc,
      fun h => absurd h hf, fun h => absurd h hp⟩
    intro _ _ _
    exact ⟨(by decide : (((-EINVAL) % 65536).toNat : Int) = 65536 - EINVAL), rfl⟩

/-- C13, amended, at a concrete input: a query with the unknown report number
0x42 in the concrete environment gets one reply with the pattern of `-EINVAL`
and size 0. -/
theorem get_report_reply_witness :
    report_types_distinct ds_env ∧
    ∃ answer, on_uhid_event ds_env (PS5Joypad.PS5Joypad ds_env 0x054C)
        (uhid_event.UHID_GET_REPORT 3 0x42) =
        (PS5Joypad.PS5Joypad ds_env 0x054C, [Effect.reply answer]) ∧
      answer.id = 3 ∧ (answer.err : Int) = 65536 - EINVAL ∧ answer.size = 0 := by
  obtain ⟨answer, e1, e2, e3, _⟩ :=
    get_report_reply ds_env (PS5Joypad.PS5Joypad ds_env 0x054C) 3 0x42 (by decide)
  exact ⟨by decide, answer, e1, e2, e3 (by decide) (by decide) (by decide)⟩

/-! ## Output reports -/

/-- The value computed by `(motor / 255.0f) * 0xFFFF` with two roundings is
within `131071 / 2^24` of `257 * motor`. -/
theorem rumble_error (fl : ℚ → ℚ) (hfl : rounds_like_float fl) (m : Nat) (hm : m ≤ 255) :
    |fl (fl ((m : ℚ) / 255) * 65535) - 257 * (m : ℚ)| ≤ 131071 / 2 ^ 24 := by
  have hm0 : (0 : ℚ) ≤ m := Nat.cast_nonneg m
  have hm1 : (m : ℚ) ≤ 255 := by exact_mod_cast hm
  obtain ⟨s, hs⟩ : ∃ s : ℚ, s = (m : ℚ) / 255 := ⟨_, rfl⟩
  have e_eq : 257 * (m : ℚ) = s * 65535 := by rw [hs]; ring
  rw [e_eq, ← hs]
  have hs0 : 0 ≤ s := by rw [hs]; positivity
  have hs1 : s ≤ 1 := by rw [hs, div_le_iff₀ (by norm_num)]; linarith
  have hs_range : s = 0 ∨ (1 / 2 ^ 32 ≤ |s| ∧ |s| ≤ 2 ^ 32) := by
    rcases Nat.eq_zero_or_pos m with h | h
    · left; rw [hs, h]; simp
    · right
      have hm1' : (1 : ℚ) ≤ m := by exact_mod_cast h
      rw [abs_of_nonneg hs0]
      refine ⟨?_, by linarith⟩
      rw [hs, le_div_iff₀ (by norm_num)]
      norm_num
      linarith
  have hfs := hfl s hs_range
  rw [abs_of_nonneg hs0] at hfs
  obtain ⟨s1, hs1def⟩ : ∃ s1 : ℚ, s1 = fl s := ⟨_, rfl⟩
  rw [← hs1def] at hfs ⊢
  have hclose : |s1 * 65535 - s * 65535| ≤ 65535 / 2 ^ 24 := by
    rw [← sub_mul, abs_mul, abs_of_nonneg (by norm_num : (0 : ℚ) ≤ 65535)]
    calc |s1 - s| * 65535 ≤ (s / 2 ^ 24) * 65535 :=
          mul_le_mul_of_nonneg_right hfs (by norm_num)
      _ ≤ (1 / 2 ^ 24) * 65535 := by
        apply mul_le_mul_of_nonneg_right _ (by norm_num)
        exact div_le_div_of_nonneg_right hs1 (by norm_num)
      _ = 65535 / 2 ^ 24 := by norm_num
  have hsn : |s * 65535| ≤ 65535 := by
    rw [abs_of_nonneg (mul_nonneg hs0 (by norm_num))]
    linarith
  have hpabs : |s1 * 65535| ≤ 65536 := by
    calc |s1 * 65535| = |(s1 * 65535 - s * 65535) + s * 65535| := by ring_nf
      _ ≤ |s1 * 65535 - s * 65535| + |s * 65535| := abs_add _ _
      _ ≤ 65535 / 2 ^ 24 + 65535 := add_le_add hclose hsn
      _ ≤ 65536 := by norm_num
  have hp_range : s1 * 65535 = 0 ∨ (1 / 2 ^ 32 ≤ |s1 * 65535| ∧ |s1 * 65535| ≤ 2 ^ 32) := by
    rcases Nat.eq_zero_or_pos m with h | h
    · left
      have hz : s = 0 := by rw [hs, h]; simp
      rw [hz] at hfs
      have h3 : |s1 - 0| = 0 := le_antisymm (by simpa using hfs) (abs_nonneg _)
      have : s1 = 0 := by simpa using h3
      rw [this]; simp
    · right
      have hm1' : (1 : ℚ) ≤ m := by exact_mod_cast h
      have hslow : 1 / 255 ≤ s := by
        rw [hs, le_div_iff₀ (by norm_num)]; linarith
      have hs1low : 1 / 510 ≤ s1 := by
        have := (abs_le.mp hfs).1
        have h4 : s / 2 ^ 24 ≤ s / 2 := by
          apply div_le_div_of_nonneg_left hs0 (by norm_num) (by norm_num)
        linarith
      have hpos : 0 ≤ s1 * 65535 := mul_nonneg (by linarith) (by norm_num)
      refine ⟨?_, by linarith [hpabs]⟩
      rw [abs_of_nonneg hpos]
      calc (1 : ℚ) / 2 ^ 32 ≤ 1 / 510 * 65535 := by norm_num
        _ ≤ s1 * 65535 := mul_le_mul_of_nonneg_right hs1low (by norm_num)
  have hfp := hfl (s1 * 65535) hp_range
  calc |fl (s1 * 65535) - s * 65535|
      = |(fl (s1 * 65535) - s1 * 65535) + (s1 * 65535 - s * 65535)| := by ring_nf
    _ ≤ |fl (s1 * 65535) - s1 * 65535| + |s1 * 65535 - s * 65535| := abs_add _ _
    _ ≤ |s1 * 65535| / 2 ^ 24 + 65535 / 2 ^ 24 := add_le_add hfp hclose
    _ ≤ 65536 / 2 ^ 24 + 65535 / 2 ^ 24 := by
      apply add_le_add_right
      exact div_le_div_of_nonneg_right hpabs (by norm_num)
    _ = 131071 / 2 ^ 24 := by norm_num

/-- The delivered intensity is `257 * motor` or one less. -/
theorem rumble_intensity_near (fl : ℚ → ℚ) (hfl : rounds_like_float fl) (m : Nat)
    (hm : m ≤ 255) :
    257 * (m : Int) - 1 ≤ rumble_intensity fl m ∧ rumble_intensity fl m ≤ 257 * (m : Int) ∧
      0 ≤ rumble_intensity fl m := by
  have herr := abs_le.mp (rumble_error fl hfl m hm)
  obtain ⟨v, hv⟩ : ∃ v : ℚ, v = fl (fl ((m : ℚ) / 255) * 65535) := ⟨_, rfl⟩
  rw [← hv] at herr
  have hsmall : (131071 : ℚ) / 2 ^ 24 < 1 / 100 := by norm_num
  have hm0 : (0 : ℚ) ≤ m := Nat.cast_nonneg m
  simp only [rumble_intensity, float_to_int, ← hv]
  rcases Nat.eq_zero_or_pos m with h | h
  · subst h
    have hle : ⌊v⌋ ≤ 0 := by
      have : ⌊v⌋ < 1 := by
        rw [Int.floor_lt]; push_cast; push_cast at herr; linarith [herr.2]
      omega
    split
    · rename_i hpos
      have : 0 ≤ ⌊v⌋ := Int.floor_nonneg.mpr hpos
      push_cast
      omega
    · rename_i hneg
      have hc : (-1 : ℤ) < ⌈v⌉ := by
        rw [Int.lt_ceil]; push_cast; push_cast at herr; linarith [herr.1]
      have hc2 : ⌈v⌉ ≤ 0 := by
        rw [Int.ceil_le]; push_cast; linarith
      push_cast
      omega
  · have hm1 : (1 : ℚ) ≤ m := by exact_mod_cast h
    have hpos : 0 ≤ v := by linarith [herr.1]
    rw [if_pos hpos]
    have lo : 257 * (m : Int) - 1 ≤ ⌊v⌋ := by
      rw [Int.le_floor]; push_cast; linarith [herr.1]
    have hi : ⌊v⌋ < 257 * (m : Int) + 1 := by
      rw [Int.floor_lt]; push_cast; linarith [herr.2]
    have : (1 : Int) ≤ m := by exact_mod_cast h
    omega

/-- The effects of an output report, in terms of the two flag conditions. -/
theorem output_effects (E : Env) (state : PS5JoypadState)
    (report : dualsense_output_report_usb) :
    on_uhid_event E state (uhid_event.UHID_OUTPUT report) =
      (state,
        (if rumble_flagged E report = true then
          match state.on_rumble with
          | some callback =>
            [Effect.rumble callback (rumble_intensity E.fl32 report.motor_left)
              (rumble_intensity E.fl32 report.motor_right)]
          | none => []
        else []) ++
        (if lightbar_flagged E report = true then
          match state.on_led with
          | some callback =>
            [Effect.led callback report.lightbar_red report.lightbar_green
              report.lightbar_blue]
          | none => []
        else [])) := rfl

/-- C14. With a rounding of `float` arithmetic within the standard error bound:
for a rumble-flagged output report with motor bytes in [0,255] and a registered
rumble callback, the callback is called once, with a left intensity computed
from the left motor byte alone and a right intensity computed from the right
motor byte alone; each intensity lies in [0,65535] and is within 1 of
257 times its motor byte (so 255 delivers 65534 or 65535), and a motor byte 0
delivers 0. -/
theorem rumble_scaling (E : Env) (state : PS5JoypadState)
    (report : dualsense_output_report_usb) (callback : Nat)
    (hfl : rounds_like_float E.fl32) (hreg : state.on_rumble = some callback)
    (hflag : rumble_flagged E report = true)
    (hl : report.motor_left ≤ 255) (hr : report.motor_right ≤ 255) :
    ∃ left right : Int,
      rumble_calls (on_uhid_event E state (uhid_event.UHID_OUTPUT report)).2 =
        [(callback, left, right)] ∧
      left = rumble_intensity E.fl32 report.motor_left ∧
      right = rumble_intensity E.fl32 report.motor_right ∧
      (0 ≤ left ∧ left ≤ 65535 ∧ |left - 257 * (report.motor_left : Int)| ≤ 1) ∧
      (0 ≤ right ∧ right ≤ 65535 ∧ |right - 257 * (report.motor_right : Int)| ≤ 1) ∧
      (report.motor_left = 0 → left = 0) ∧ (report.motor_right = 0 → right = 0) := by
  have bound : ∀ m : Nat, m ≤ 255 →
      (0 ≤ rumble_intensity E.fl32 m ∧ rumble_intensity E.fl32 m ≤ 65535 ∧
        |rumble_intensity E.fl32 m - 257 * (m : Int)| ≤ 1) ∧
      (m = 0 → rumble_intensity E.fl32 m = 0) := by
    intro m hm
    obtain ⟨h1, h2, h3⟩ := rumble_intensity_near E.fl32 hfl m hm
    have hm' : (m : Int) ≤ 255 := by exact_mod_cast hm
    refine ⟨⟨h3, by omega, ?_⟩, ?_⟩
    · rw [abs_le]
      constructor <;> omega
    · intro h0
      have : (m : Int) = 0 := by exact_mod_cast h0
      omega
  refine ⟨_, _, ?_, rfl, rfl, (bound _ hl).1, (bound _ hr).1, (bound _ hl).2, (bound _ hr).2⟩
  rw [output_effects]
  simp only [hflag, hreg, if_true]
  cases lightbar_flagged E report <;> cases state.on_led <;>
    simp [rumble_calls]

theorem exact_rounds_like_float : rounds_like_float (fun q => q) := by
  intro q _
  simp only [sub_self, abs_zero]
  positivity

/-- C14, at a concrete input: exact arithmetic, a registered callback 1, flag
byte 0 set to 1, motor bytes 255 (left) and 0 (right). -/
theorem rumble_scaling_witness :
    (rounds_like_float ds_env.fl32 ∧
      (PS5Joypad.set_on_rumble 1 (PS5Joypad.PS5Joypad ds_env 0x054C)).on_rumble = some 1 ∧
      rumble_flagged ds_env
        { valid_flag0 := 1, valid_flag1 := 0, valid_flag2 := 0, motor_left := 255,
          motor_right := 0, lightbar_red := 0, lightbar_green := 0, lightbar_blue := 0 } = true ∧
      (255 : Nat) ≤ 255 ∧ (0 : Nat) ≤ 255) ∧
    ∃ left right : Int,
      rumble_calls (on_uhid_event ds_env
        (PS5Joypad.set_on_rumble 1 (PS5Joypad.PS5Joypad ds_env 0x054C))
        (uhid_event.UHID_OUTPUT
          { valid_flag0 := 1, valid_flag1 := 0, valid_flag2 := 0, motor_left := 255,
            motor_right := 0, lightbar_red := 0, lightbar_green := 0,
            lightbar_blue := 0 })).2 = [(1, left, right)] ∧
      |left - 65535| ≤ 1 ∧ left ≤ 65535 ∧ right = 0 := by
  obtain ⟨left, right, h1, _, _, h4, _, _, h7⟩ :=
    rumble_scaling ds_env (PS5Joypad.set_on_rumble 1 (PS5Joypad.PS5Joypad ds_env 0x054C))
      { valid_flag0 := 1, valid_flag1 := 0, valid_flag2 := 0, motor_left := 255,
        motor_right := 0, lightbar_red := 0, lightbar_green := 0, lightbar_blue := 0 } 1
      exact_rounds_like_float rfl (by decide) (by decide) (by decide)
  exact ⟨⟨exact_rounds_like_float, rfl, by decide, by decide, by decide⟩,
    left, right, h1, h4.2.2, h4.2.1, h7 rfl⟩

/-- C15. An output report leaves the state as it is and produces no reply. The
rumble callback is called exactly once when the report is rumble-flagged
(`valid_flag0` has `MOTOR_OR_COMPATIBLE_VIBRATION` or `valid_flag2` has
`COMPATIBLE_VIBRATION`) and a rumble callback is registered, and not at all
otherwise; the LED callback is called exactly once, with the three lightbar
bytes of the report, when `valid_flag1` has `LIGHTBAR_ENABLE` and an LED
callback is registered, and not at all otherwise. With no callback registered
there is no effect at all. -/
theorem output_report_callbacks (E : Env) (state : PS5JoypadState)
    (report : dualsense_output_report_usb) :
    (on_uhid_event E state (uhid_event.UHID_OUTPUT report)).1 = state ∧
    reply_payloads (on_uhid_event E state (uhid_event.UHID_OUTPUT report)).2 = [] ∧
    ((rumble_calls (on_uhid_event E state (uhid_event.UHID_OUTPUT report)).2).length = 1 ↔
      (rumble_flagged E report = true ∧ state.on_rumble.isSome = true)) ∧
    (rumble_calls (on_uhid_event E state (uhid_event.UHID_OUTPUT report)).2).length ≤ 1 ∧
    ((led_calls (on_uhid_event E state (uhid_event.UHID_OUTPUT report)).2).length = 1 ↔
      (lightbar_flagged E report = true ∧ state.on_led.isSome = true)) ∧
    (led_calls (on_uhid_event E state (uhid_event.UHID_OUTPUT report)).2).length ≤ 1 ∧
    (∀ callback, lightbar_flagged E report = true → state.on_led = some callback →
      led_calls (on_uhid_event E state (uhid_event.UHID_OUTPUT report)).2 =
        [(callback, report.lightbar_red, report.lightbar_green, report.lightbar_blue)]) ∧
    (state.on_rumble = none → state.on_led = none →
      (on_uhid_event E state (uhid_event.UHID_OUTPUT report)).2 = []) := by
  rw [output_effects]
  cases rumble_flagged E report <;> cases state.on_rumble <;>
    cases lightbar_flagged E report <;> cases state.on_led <;>
    simp [rumble_calls, led_calls, reply_payloads]

/-! ## Device nodes -/

theorem get_sys_nodes_eq (base : Option (List uhid_dir_entry)) (state : PS5JoypadState) :
    PS5Joypad.get_sys_nodes base state =
      match base with
      | some uhid_entries => scan_uhid_entries (to_hex state.vendor_id) [] uhid_entries
      | none => [] := rfl

/-- C16. On a base directory whose only input device has the `uniq` content
`de:ad:be:ef:0:1`, a controller with the hardware address `a7:f1:d9:2a:82:c8`
gets that device returned by `get_sys_nodes`; in general the result does not
depend on the hardware address of the controller at all. -/
theorem get_sys_nodes_ignores_uniq :
    PS5Joypad.get_mac_address (PS5Joypad.PS5Joypad ds_env 0x054C) = "a7:f1:d9:2a:82:c8".data ∧
    PS5Joypad.get_sys_nodes foreign_uniq_base (PS5Joypad.PS5Joypad ds_env 0x054C) =
      ["/sys/devices/virtual/misc/uhid/0003:054C:0CE6.000D/input/input58".data] ∧
    ∀ (base : Option (List uhid_dir_entry)) (state : PS5JoypadState) (mac : List Nat),
      PS5Joypad.get_sys_nodes base { state with mac_address := mac } =
        PS5Joypad.get_sys_nodes base state := by
  refine ⟨by decide, by decide, ?_⟩
  intro base state mac
  rw [get_sys_nodes_eq, get_sys_nodes_eq]

/-! ## Motion -/

theorem set_motion_fields (E : Env) (now : Nat) (type : MOTION_TYPE) (x y z : ℚ)
    (s : PS5JoypadState) :
    motion_field type (PS5Joypad.set_motion E now type x y z s).current_state =
      ![to_le_signed x (motion_value E type x), to_le_signed y (motion_value E type y),
        to_le_signed z (motion_value E type z)] := by
  cases type <;> rfl

/-- C17, as stated, fails: for the acceleration sample (-1, 0, 0) the value that
`set_motion` passes to `to_le_signed` next to the component -1 is
`-1 * 9.80665 * 100 = -980.665`, which is negative. -/
theorem motion_value_negative :
    motion_field MOTION_TYPE.ACCELERATION
      (PS5Joypad.set_motion ds_env 1000 MOTION_TYPE.ACCELERATION (-1) 0 0
        (PS5Joypad.PS5Joypad ds_env 0x054C)).current_state 0 =
      to_le_signed (-1) (motion_value ds_env MOTION_TYPE.ACCELERATION (-1)) ∧
    motion_value ds_env MOTION_TYPE.ACCELERATION (-1) = -196133 / 200 ∧
    ¬ (0 ≤ motion_value ds_env MOTION_TYPE.ACCELERATION (-1)) := by
  have h : motion_value ds_env MOTION_TYPE.ACCELERATION (-1) = -196133 / 200 := by
    simp only [motion_value, ds_env]
    norm_num
  refine ⟨rfl, h, ?_⟩
  rw [h]
  norm_num

theorem to_le_signed_negative (c v : ℚ) (hc : c < 0) :
    (to_le_signed c v).testBit 15 = true := by
  simp only [to_le_signed, if_pos hc]
  rw [show (65536 : Nat) = 2 ^ 16 from rfl, Nat.testBit_mod_two_pow, Nat.testBit_or,
    show (1 <<< 15 : Nat) = 2 ^ 15 from rfl, Nat.testBit_two_pow_self]
  simp

theorem to_le_signed_nonneg (c v : ℚ) (hc : 0 ≤ c) (hv0 : 0 ≤ v) (hv1 : v < 32768) :
    to_le_signed c v = ⌊v⌋.toNat ∧ (to_le_signed c v).testBit 15 = false := by
  have h0 : 0 ≤ ⌊v⌋ := Int.floor_nonneg.mpr hv0
  have h1 : ⌊v⌋ < 32768 := by
    rw [Int.floor_lt]; push_cast; exact hv1
  have e : to_le_signed c v = ⌊v⌋.toNat := by
    simp only [to_le_signed, if_neg (not_lt.mpr hc), float_to_u16, if_pos hv0]
    rw [Int.emod_eq_of_lt h0 (by omega)]
  refine ⟨e, ?_⟩
  rw [e]
  apply Nat.testBit_lt_two_pow
  have : ⌊v⌋.toNat < 32768 := by omega
  exact this

/-- C17, amended. With positive unit constants and a rounding that does not
move a value across zero: for every motion sample of either kind each written
field is `to_le_signed` of the component and of the component times the unit
constant (times 100 for acceleration); that value has the sign of the
component, so it is non-negative when the component is non-negative and not
positive when the component is negative. For a negative component bit 15 of
the written field is set; for a non-negative component whose scaled value is
below 32768 the written field is the scaled value truncated, with bit 15
clear. -/
theorem motion_value_sign (E : Env) (now : Nat) (type : MOTION_TYPE) (x y z : ℚ)
    (s : PS5JoypadState) (hG : 0 < E.SDL_STANDARD_GRAVITY) (hR : 0 < E.gyro_resolution)
    (hfl : sign_preserving E.fl32) :
    motion_field type (PS5Joypad.set_motion E now type x y z s).current_state =
      ![to_le_signed x (motion_value E type x), to_le_signed y (motion_value E type y),
        to_le_signed z (motion_value E type z)] ∧
    ∀ c : ℚ,
      (0 ≤ c → 0 ≤ motion_value E type c) ∧
      (c < 0 → motion_value E type c ≤ 0) ∧
      (c < 0 → (to_le_signed c (motion_value E type c)).testBit 15 = true) ∧
      (0 ≤ c → motion_value E type c < 32768 →
        to_le_signed c (motion_value E type c) = ⌊motion_value E type c⌋.toNat ∧
        (to_le_signed c (motion_value E type c)).testBit 15 = false) := by
  refine ⟨set_motion_fields E now type x y z s, ?_⟩
  intro c
  have hpos : 0 ≤ c → 0 ≤ motion_value E type c := by
    intro hc
    cases type
    · exact (hfl _).1 (mul_nonneg ((hfl _).1 (mul_nonneg hc hG.le)) (by norm_num))
    · exact (hfl _).1 (mul_nonneg hc hR.le)
  have hneg : c < 0 → motion_value E type c ≤ 0 := by
    intro hc
    cases type
    · have h1 : E.fl32 (c * E.SDL_STANDARD_GRAVITY) ≤ 0 :=
        (hfl _).2 (mul_nonpos_of_nonpos_of_nonneg hc.le hG.le)
      exact (hfl _).2 (mul_nonpos_of_nonpos_of_nonneg h1 (by norm_num))
    · exact (hfl _).2 (mul_nonpos_of_nonpos_of_nonneg hc.le hR.le)
  exact ⟨hpos, hneg, fun hc => to_le_signed_negative c _ hc,
    fun hc hv => to_le_signed_nonneg c _ hc (hpos hc) hv⟩

theorem exact_sign_preserving : sign_preserving (fun q => q) :=
  fun _ => ⟨fun h => h, fun h => h⟩

/-- C17, amended, at a concrete input: the gyroscope sample (1, -2, 0) in the
concrete environment. -/
theorem motion_value_sign_witness :
    (0 < ds_env.SDL_STANDARD_GRAVITY ∧ 0 < ds_env.gyro_resolution ∧
      sign_preserving ds_env.fl32) ∧
    0 ≤ motion_value ds_env MOTION_TYPE.GYROSCOPE 1 ∧
    motion_value ds_env MOTION_TYPE.GYROSCOPE (-2) ≤ 0 ∧
    (to_le_signed (-2) (motion_value ds_env MOTION_TYPE.GYROSCOPE (-2))).testBit 15 = true := by
  have hG : 0 < ds_env.SDL_STANDARD_GRAVITY := by simp only [ds_env]; norm_num
  have hR : 0 < ds_env.gyro_resolution := by simp only [ds_env]; norm_num
  have h := (motion_value_sign ds_env 1000 MOTION_TYPE.GYROSCOPE 1 (-2) 0
    (PS5Joypad.PS5Joypad ds_env 0x054C) hG hR exact_sign_preserving).2
  exact ⟨⟨hG, hR, exact_sign_preserving⟩, (h 1).1 (by norm_num), (h (-2)).2.1 (by norm_num),
    (h (-2)).2.2.1 (by norm_num)⟩

/-! ## Hat codes on every bitmask -/

/-- With the DualSense hat codes the five hat statements leave one of the nine
codes in `buttons[0]`, whatever D-pad bits are set. -/
theorem hat_of_dpad_is_code (E : Env) (pressed : Nat) (hc : dualsense_hat_codes E) :
    hat_of_dpad E pressed 0 ∈
      [E.HAT_N, E.HAT_NE, E.HAT_E, E.HAT_SE, E.HAT_S, E.HAT_SW, E.HAT_W, E.HAT_NW,
        E.HAT_NEUTRAL] := by
  obtain ⟨h0, h1, h2, h3, h4, h5, h6, h7, h8⟩ := hc
  simp only [hat_of_dpad, or_u8, h0, h1, h2, h3, h4, h5, h6, h7, h8]
  cases flag_set E.DPAD_UP pressed <;> cases flag_set E.DPAD_DOWN pressed <;>
    cases flag_set E.DPAD_LEFT pressed <;> cases flag_set E.DPAD_RIGHT pressed <;>
    decide

/-- C18. With the DualSense hat codes (N = 0 clockwise to NW = 7, neutral = 8)
and face-button bits in the high nibble: for every bitmask, also one with
opposite D-pad directions set together, the low nibble of `buttons[0]` after
`set_pressed_buttons` is what the hat statements left there, untouched by the
face-button bits, and it is one of the nine hat codes. -/
theorem hat_nibble_is_code (E : Env) (now pressed : Nat) (s : PS5JoypadState)
    (hc : dualsense_hat_codes E) (hl : hat_in_low_nibble E) :
    (PS5Joypad.set_pressed_buttons E now pressed s).current_state.buttons 0 % 16 =
      hat_of_dpad E pressed 0 ∧
    (PS5Joypad.set_pressed_buttons E now pressed s).current_state.buttons 0 % 16 ∈
      [E.HAT_N, E.HAT_NE, E.HAT_E, E.HAT_SE, E.HAT_S, E.HAT_SW, E.HAT_W, E.HAT_NW,
        E.HAT_NEUTRAL] := by
  have hmem := hat_of_dpad_is_code E pressed hc
  have hlt : hat_of_dpad E pressed 0 < 16 := by
    obtain ⟨h0, h1, h2, h3, h4, h5, h6, h7, h8⟩ := hc
    simp only [h0, h1, h2, h3, h4, h5, h6, h7, h8, List.mem_cons, List.mem_singleton,
      List.not_mem_nil, or_false] at hmem
    omega
  have e : (PS5Joypad.set_pressed_buttons E now pressed s).current_state.buttons 0 % 16 =
      hat_of_dpad E pressed 0 := by
    rw [set_pressed_buttons_buttons]
    show face_buttons E pressed (hat_of_dpad E pressed 0) % 16 = _
    rw [face_buttons_low_nibble E pressed _ hl.2, Nat.mod_eq_of_lt hlt]
  exact ⟨e, e ▸ hmem⟩

/-- C18, at a concrete input: all four D-pad bits together with the four face
buttons (mask 0xF00F) in the concrete environment leave hat code NW. -/
theorem hat_nibble_is_code_witness :
    (dualsense_hat_codes ds_env ∧ hat_in_low_nibble ds_env) ∧
    (PS5Joypad.set_pressed_buttons ds_env 1000 0xF00F
      (PS5Joypad.PS5Joypad ds_env 0x054C)).current_state.buttons 0 % 16 = ds_env.HAT_NW := by
  have h := (hat_nibble_is_code ds_env 1000 0xF00F (PS5Joypad.PS5Joypad ds_env 0x054C)
    (by decide) (by decide)).1
  refine ⟨⟨by decide, by decide⟩, ?_⟩
  rw [h]
  decide

/-! ## The finger guard -/

/-- C19. The index -1 passes the guard `finger_nr <= 1` of both methods and
lies outside the two-element array, so neither `place_finger(-1, 5, 5)` nor
`release_finger(-1)` has a defined result; an index above 1, such as 2, is
turned away by the guard and leaves the touch state as it is. -/
theorem negative_finger_passes_guard :
    decide ((-1 : Int) ≤ 1) = true ∧ finger_index (-1) = none ∧
    (PS5Joypad.place_finger 1000 (-1) 5 5 (PS5Joypad.PS5Joypad ds_env 0x054C)).isNone = true ∧
    (PS5Joypad.release_finger 1000 (-1) (PS5Joypad.PS5Joypad ds_env 0x054C)).isNone = true ∧
    (PS5Joypad.place_finger 1000 2 5 5 (PS5Joypad.PS5Joypad ds_env 0x054C)).map touch_view =
      some (touch_view (PS5Joypad.PS5Joypad ds_env 0x054C)) := by
  decide

end Inputtino
